import Mathlib

/-!
# Verification of the lircd dispatcher core

A shallow embedding, in Lean 4, of the lircd dispatcher daemon
(fd_list.cpp, lircd.cpp, lircd_commands.cpp, lircd_messages.cpp,
reply_parser.cpp).  Strings are modelled as lists of characters
(`Str`), file descriptors and counters as `Int`, the fd registry as a
`List FdItem`, and socket writes / filesystem effects as an explicit
output trace (`Out`).  Every definition is translated from the C++
source; varargs `printf`-style formatting of non-string arguments is
abstracted by carrying the format string itself, which no theorem
below depends on.
-/

set_option maxRecDepth 10000

namespace Lircd

/-- Strings of the C program, modelled as lists of characters. -/
abbrev Str := List Char

/-- The whitespace set stripped by `ReplyParser::feed`
(`find_last_not_of(" \t\n\r")`). -/
def isWS (c : Char) : Bool :=
  c = ' ' || c = '\t' || c = '\n' || c = '\r'

/-- Trailing-whitespace stripping done by `ReplyParser::feed`: the C code
leaves the input unchanged when `find_last_not_of` returns `npos`
(all-whitespace input), otherwise cuts after the last non-whitespace
character. -/
def stripInput (s : Str) : Str :=
  if s.all isWS then s else (s.reverse.dropWhile isWS).reverse

/-- `count_newlines` from lircd_messages.cpp (our strings carry no NUL). -/
def count_newlines (s : Str) : Nat := s.count '\n'

/-- Decimal digits of a natural number (`snprintf("%d")`), fuel-driven so
that the kernel can evaluate it. -/
def natDigitsCore : Nat → Nat → Str
  | 0, _ => []
  | fuel + 1, n =>
    if n < 10 then [Char.ofNat (48 + n)]
    else natDigitsCore fuel (n / 10) ++ [Char.ofNat (48 + n % 10)]

/-- Decimal representation of a natural number. -/
def natStr (n : Nat) : Str := natDigitsCore (n + 1) n

/-- Decimal representation of an `Int` (`printf("%d")`). -/
def intStr (i : Int) : Str :=
  if i < 0 then '-' :: natStr i.natAbs else natStr i.natAbs

/-! ## ReplyParser (reply_parser.cpp) -/

/-- Parser states (`ReplyParser::states`). -/
inductive PState
  | BEGINS | COMMAND | RESULT | DATA | LINE_COUNT | LINES | ENDS
  | DONE | NO_DATA | BAD_DATA
  deriving Repr, DecidableEq

/-- Parser results (`ReplyParser::Result`). -/
inductive PResult
  | OK | FAIL | CANT_PARSE | TIMEOUT | INCOMPLETE
  deriving Repr, DecidableEq

/-- The `ReplyParser` object.  A freshly constructed parser has all
string members default-constructed empty; `line_count` is an
uninitialised `int` in the C++ object, modelled as 0 (it is written
before it is ever read). -/
structure ReplyParser where
  state : PState
  command : Str
  lines : Str
  last_line : Str
  line_count : Int
  success : Bool
  deriving Repr, DecidableEq

/-- A freshly constructed `ReplyParser()`. -/
def ReplyParser.fresh : ReplyParser :=
  { state := .BEGINS, command := [], lines := [], last_line := [],
    line_count := 0, success := false }

/-- `ReplyParser::reset()`.  Note the source's `lines == "";` is a
comparison, not an assignment, so `lines` is *not* cleared, and
`line_count` is not reset either. -/
def ReplyParser.reset (p : ReplyParser) : ReplyParser :=
  { p with state := .BEGINS, command := [], last_line := [], success := false }

/-- `sscanf(input, "%2d", &line_count)`: skip leading C whitespace, an
optional sign, then at most two decimal digits. -/
def scan2d (s : Str) : Option Int :=
  let s1 := s.dropWhile fun c =>
    c = ' ' || c = '\t' || c = '\n' || c = '\r' ||
    c = Char.ofNat 11 || c = Char.ofNat 12
  let (neg, s2) : Bool × Str :=
    match s1 with
    | '-' :: r => (true, r)
    | '+' :: r => (false, r)
    | r => (false, r)
  let digits := (s2.takeWhile fun c => c.isDigit).take (if neg then 1 else 2)
  if digits = [] then none
  else
    let v : Int := digits.foldl (fun a c => a * 10 + (c.toNat - 48 : Int)) 0
    some (if neg then -v else v)

/-- `ReplyParser::feed(line)`, one transition of the reply state
machine. -/
def ReplyParser.feed (p : ReplyParser) (line : Str) : ReplyParser :=
  let input := stripInput line
  let p := { p with last_line := input }
  match p.state with
  | .BEGINS =>
    { p with state := if input = "BEGIN".toList then .COMMAND else .BAD_DATA }
  | .COMMAND =>
    if input ≠ [] then { p with state := .RESULT, command := input }
    else { p with state := .BAD_DATA }
  | .RESULT =>
    if input = "SUCCESS".toList || input = "ERROR".toList then
      { p with state := .DATA, success := input = "SUCCESS".toList }
    else { p with state := .BAD_DATA }
  | .DATA =>
    if input = "DATA".toList then { p with state := .LINE_COUNT }
    else { p with state := if input = "END".toList then .DONE else .BAD_DATA }
  | .LINE_COUNT =>
    match scan2d input with
    | none => { p with state := .BAD_DATA }
    | some n => { p with state := .LINES, line_count := n }
  | .LINES =>
    -- line_count is decremented first; an empty line sets BAD_DATA, but the
    -- final `if (line_count <= 0) state = END;` overwrites even that.
    let cnt := p.line_count - 1
    let lns := if input ≠ [] then p.lines ++ input ++ ['\n'] else p.lines
    let st : PState := if input ≠ [] then .LINES else .BAD_DATA
    { p with line_count := cnt, lines := lns,
             state := if cnt ≤ 0 then .ENDS else st }
  | .ENDS =>
    { p with state := if input = "END".toList then .DONE else .BAD_DATA }
  | .DONE | .NO_DATA | .BAD_DATA => p

/-- `ReplyParser::is_completed()`. -/
def ReplyParser.is_completed (p : ReplyParser) : Bool :=
  p.state = .DONE || p.state = .NO_DATA || p.state = .BAD_DATA

/-- `ReplyParser::get_result()`. -/
def ReplyParser.get_result (p : ReplyParser) : PResult :=
  match p.state with
  | .DONE => if p.success then .OK else .FAIL
  | .BAD_DATA => .CANT_PARSE
  | .NO_DATA => .TIMEOUT
  | _ => .INCOMPLETE

/-- Feed a list of lines in order. -/
def ReplyParser.feedAll (p : ReplyParser) (ls : List Str) : ReplyParser :=
  ls.foldl ReplyParser.feed p

/-! ## Wire codec (lircd_messages.cpp) -/

/-- `PACKET_SIZE`. -/
def PACKET_SIZE : Nat := 256

/-- `strip_trailing_nl`: `strrchr(buff,'\n')` finds the *last* newline and
overwrites it with NUL, i.e. everything from the last newline on is cut. -/
def strip_trailing_nl (s : Str) : Str :=
  match (s.reverse.dropWhile (· ≠ '\n')) with
  | [] => s
  | _ :: r => r.reverse

/-- `send_success(fd, message)`: no trailing-newline handling at all; the
message is spliced in verbatim between `BEGIN\n` and `SUCCESS\nEND\n`. -/
def sendSuccessStr (message : Str) : Str :=
  "BEGIN\n".toList ++ message ++ "SUCCESS\n".toList ++ "END\n".toList

/-- `send_success(fd, message, data)`: the message is copied into a
128-byte buffer (`strncpy(buff, message, 127)`), its trailing newline (if
it is the final character) is stripped, and the payload line count is
`count_newlines(data)`. -/
def sendSuccessDataStr (message data : Str) : Str :=
  let buff := message.take 127
  let buff := if buff.getLast? = some '\n' then buff.dropLast else buff
  "BEGIN\n".toList ++ buff ++ ['\n'] ++ "SUCCESS\n".toList ++ "DATA\n".toList
    ++ natStr (count_newlines data) ++ ['\n'] ++ data ++ "END\n".toList

/-- `send_error(fd, message_arg, format, ...)`: `body` is the already
vsprintf-formatted buffer.  Both message and body are cut at their last
newline; the line count is `count_newlines(body)+1`, printed through a
4-byte buffer (`char lines[4]`), so counts of three or more digits lose
their terminating newline. -/
def sendErrorStr (message_arg body : Str) : Str :=
  let message := strip_trailing_nl (message_arg.take (PACKET_SIZE + 1))
  let buffer := strip_trailing_nl body
  let n := count_newlines buffer + 1
  let lines := (natStr n ++ ['\n']).take 3
  "BEGIN\n".toList ++ message ++ ['\n'] ++ "ERROR\n".toList ++ "DATA\n".toList
    ++ lines ++ buffer ++ ['\n'] ++ "END\n".toList

/-- `send_sighup(fd)`. -/
def sendSighupStr : Str :=
  "BEGIN\n".toList ++ "SIGHUP\n".toList ++ "END\n".toList

/-- A payload or message line in canonical wire form: non-empty, free
of newlines, and without trailing whitespace (so that the parser's
input stripping leaves it unchanged). -/
def cleanLine (s : Str) : Bool :=
  !s.isEmpty && !s.contains '\n' &&
    (match s.getLast? with
     | some c => !isWS c
     | none => false)

/-- A payload of newline-terminated lines, as written by the encoders. -/
def joinNl (ls : List Str) : Str :=
  (ls.map (fun l => l ++ ['\n'])).flatten

/-- Split a byte stream into its complete newline-terminated lines,
keeping the terminators; an unterminated tail is not a line (this is
what `LineBuffer` hands to the line handlers).  `acc` is the reversed
current partial line. -/
def toLinesAux : Str → Str → List Str
  | [], _ => []
  | c :: cs, acc =>
    if c = '\n' then (acc.reverse ++ ['\n']) :: toLinesAux cs []
    else toLinesAux cs (c :: acc)

/-- The complete lines of a byte stream. -/
def toLines (s : Str) : List Str := toLinesAux s []

/-! ## split_once (lircd_messages.cpp) -/

/-- The delimiter set `" \t\r\n"` of `split_once`'s first `strtok`. -/
def isTokDelim (c : Char) : Bool :=
  c = ' ' || c = '\t' || c = '\r' || c = '\n'

/-- The delimiter set `"\n"` of `split_once`'s second `strtok`. -/
def isNl (c : Char) : Bool := c = '\n'

/-- One `strtok` step over a delimiter set `d`: skip leading
delimiters, return the maximal delimiter-free token and the rest of
the string with the single terminating delimiter (if any) consumed —
`strtok` overwrites that delimiter with NUL and continues after it. -/
def strtok1 (d : Char → Bool) (s : Str) : Option (Str × Str) :=
  let s1 := s.dropWhile d
  if s1 = [] then none
  else some (s1.takeWhile (fun c => ¬ d c), (s1.dropWhile (fun c => ¬ d c)).drop 1)

/-- `split_once(str)` from lircd_messages.cpp: first token by
`strtok(buff, " \t\r\n")`, then the remainder by `strtok(NULL, "\n")`.
(The near-identical copy in daemons/lircd.cpp differs only in not
treating `'\r'` as a first-token delimiter.)  `strtok` never returns an
empty token, so the `*token == '\0'` checks in the source are inert. -/
def split_once (s : Str) : List Str :=
  if s = [] then []
  else
    match strtok1 isTokDelim s with
    | none => []
    | some (tok, rest) =>
      match strtok1 isNl rest with
      | none => [tok]
      | some (tok2, _) => [tok, tok2]

/-- Reference description (for comparison with `split_once`): the first
whitespace-delimited token of the input. -/
def specFirstTok (s : Str) : Str :=
  (s.dropWhile isTokDelim).takeWhile (fun c => ¬ isTokDelim c)

/-- Reference description: what remains after the first token and its
single terminating delimiter, with further leading newlines skipped —
the text `strtok(NULL, "\n")` starts from. -/
def specRemainder (s : Str) : Str :=
  ((((s.dropWhile isTokDelim).dropWhile
      (fun c => ¬ isTokDelim c)).drop 1).dropWhile isNl)

/-! ## Fd registry (fd_list.h / fd_list.cpp) -/

/-- `FdItem::fd_kind`. -/
inductive FdKind
  | CLIENT | BACKEND | CTRL | BACKEND_DATA | BACKEND_CMD
  | CLIENT_STREAM | CTRL_STREAM | UNDEFINED
  deriving Repr, DecidableEq

/-- One registry record.  The `LineBuffer` member carries no routing
state and no claim reads it, so it is not modelled; the `ReplyParser`
is heap-allocated per item in the source and embedded by value here. -/
structure FdItem where
  fd : Int
  kind : FdKind
  pid : Int
  peer : Int
  connected_to : Int
  id : Str
  expected : Str
  ticks : Int
  parser : ReplyParser
  deriving Repr, DecidableEq

/-- `init(item)` / the default `FdItem()` constructor. -/
def FdItem.mk0 : FdItem :=
  { fd := -1, kind := .UNDEFINED, pid := 0, peer := -1, connected_to := -1,
    id := "undef".toList, expected := "NONE".toList, ticks := -1,
    parser := ReplyParser.fresh }

/-- `FdItem(fd, kind, pid)`. -/
def FdItem.mkK (fd : Int) (kind : FdKind) (pid : Int := 0) : FdItem :=
  { FdItem.mk0 with fd := fd, kind := kind, pid := pid }

/-- Whether a record is a client-side stream (CLIENT_STREAM or
CTRL_STREAM) — the records whose tick counters are serviced. -/
def FdItem.clientish (r : FdItem) : Bool :=
  r.kind = .CLIENT_STREAM || r.kind = .CTRL_STREAM

/-- Dispatcher state: the fd registry plus the `default_backend`
global of lircd_commands.cpp. -/
structure DState where
  fdList : List FdItem
  default_backend : Int
  deriving Repr, DecidableEq

/-- Externally visible effects: a `write_socket` of raw bytes, or an
`unlink` of a filesystem path. -/
inductive Out
  | write (fd : Int) (data : Str)
  | unlinkP (path : Str)
  deriving Repr, DecidableEq

/-- `FdList::find_fd`: index of the first record with the given fd. -/
def findFd (l : List FdItem) (fd : Int) : Option Nat :=
  l.findIdx? (fun r => r.fd = fd)

/-- Update the record at an index (a write through an `ItemIterator`). -/
def upd (l : List FdItem) (i : Nat) (f : FdItem → FdItem) : List FdItem :=
  match l.get? i with
  | none => l
  | some r => l.set i (f r)

/-- `FdList(client_fd, backend_fd, ctrl_fd)`: the three immortal
listen-socket records. -/
def initialFdList (client_fd backend_fd ctrl_fd : Int) : List FdItem :=
  [FdItem.mkK client_fd .CLIENT, FdItem.mkK backend_fd .BACKEND,
   FdItem.mkK ctrl_fd .CTRL]

/-- `FdList::add_backend(cmd_fd, data_fd)`: pushes the data record, then
the command record, cross-linked through `peer`. -/
def addBackend (l : List FdItem) (cmd_fd data_fd : Int) : List FdItem :=
  l ++ [{ FdItem.mkK data_fd .BACKEND_DATA with peer := cmd_fd },
        { FdItem.mkK cmd_fd .BACKEND_CMD with peer := data_fd }]

/-- `FdList::add_client(fd)`. -/
def addClient (l : List FdItem) (fd : Int) : List FdItem :=
  l ++ [FdItem.mkK fd .CLIENT_STREAM]

/-- `FdList::add_ctrl_client(fd)`. -/
def addCtrlClient (l : List FdItem) (fd : Int) : List FdItem :=
  l ++ [FdItem.mkK fd .CTRL_STREAM]

/-- `FdList::remove_client(fd)`: erase the record with the given fd (and
only it), if present. -/
def removeClient (l : List FdItem) (fd : Int) : List FdItem :=
  match findFd l fd with
  | none => l
  | some i => l.eraseIdx i

/-! ## Router (lircd_commands.cpp) -/

/-- `COMMAND_TIMEOUT_TICKS`. -/
def COMMAND_TIMEOUT_TICKS : Int := 20

/-- `connect_fds(client_fd, backend_fd)`. -/
def connect_fds (l : List FdItem) (client_fd backend_fd : Int) :
    Bool × List FdItem :=
  match findFd l backend_fd with
  | none => (false, l)
  | some b =>
    if client_fd = 0 then
      (true, upd l b fun r => { r with connected_to := 0 })
    else
      let l := upd l b fun r => { r with connected_to := client_fd }
      match findFd l client_fd with
      | none => (false, l)
      | some c =>
        (true, upd l c fun r =>
          { r with connected_to := backend_fd, ticks := COMMAND_TIMEOUT_TICKS })

/-- `disconnect_fds(fd)`. -/
def disconnect_fds (l : List FdItem) (fd : Int) : Bool × List FdItem :=
  match findFd l fd with
  | none => (false, l)
  | some m =>
    let me := (l.get? m).getD FdItem.mk0
    if me.connected_to = 0 then
      (true, upd l m fun r => { r with connected_to := -1 })
    else
      let l := upd l m fun r => { r with ticks := -1 }
      if me.connected_to = -1 then (false, l)
      else
        let other := findFd l me.connected_to
        let l := upd l m fun r => { r with connected_to := -1 }
        match other with
        | none => (false, l)
        | some o =>
          (true, upd l o fun r => { r with connected_to := -1, ticks := -1 })

/-! ## Heartbeat tick (`dosigalrm`, lircd.cpp) -/

/-- The body of `dosigalrm`'s loop for the record at index `i`. -/
def tickStep (l : List FdItem) (i : Nat) : List FdItem × List Out :=
  match l.get? i with
  | none => (l, [])
  | some it =>
    if ¬ it.clientish then (l, [])
    else if it.ticks ≤ 0 then (l, [])
    else
      let l := upd l i fun r => { r with ticks := r.ticks - 1 }
      if it.ticks - 1 > 0 then (l, [])
      else
        let out := Out.write it.fd (sendErrorStr it.expected "TIMEOUT".toList)
        let l := (disconnect_fds l it.fd).2
        (upd l i fun r => { r with ticks := -1 }, [out])

/-- Run `tickStep` on indices `i, i+1, …` (`fuel` many). -/
def tickFrom (l : List FdItem) (i fuel : Nat) : List FdItem × List Out :=
  match fuel with
  | 0 => (l, [])
  | fuel + 1 =>
    let (l1, o1) := tickStep l i
    let (l2, o2) := tickFrom l1 (i + 1) fuel
    (l2, o1 ++ o2)

/-- `dosigalrm()`: one pass over the whole registry.  `disconnect_fds`
never erases records, so iteration by index is faithful to the
iterator loop. -/
def dosigalrm (l : List FdItem) : List FdItem × List Out :=
  tickFrom l 0 l.length

/-! ## Backend registration handshake (lircd.cpp) -/

/-- C `isspace`. -/
def isCSpace (c : Char) : Bool :=
  c = ' ' || c = '\t' || c = '\n' || c = '\r' ||
  c = Char.ofNat 11 || c = Char.ofNat 12

/-- One `%Ns` conversion: skip whitespace, read at most `width`
non-whitespace characters. -/
def scanStr (width : Nat) (s : Str) : Option (Str × Str) :=
  let s1 := s.dropWhile isCSpace
  let tok := (s1.takeWhile fun c => ¬ isCSpace c).take width
  if tok = [] then none else some (tok, s1.drop tok.length)

/-- One `%Nd` conversion: skip whitespace, optional sign, then decimal
digits within the field width. -/
def scanInt (width : Nat) (s : Str) : Option (Int × Str) :=
  let s1 := s.dropWhile isCSpace
  let (neg, s2, w) : Bool × Str × Nat :=
    match s1 with
    | '-' :: r => (true, r, width - 1)
    | '+' :: r => (false, r, width - 1)
    | r => (false, r, width)
  let ds := (s2.takeWhile Char.isDigit).take w
  if ds = [] then none
  else
    let v : Int := ds.foldl (fun a c => a * 10 + (c.toNat - 48 : Int)) 0
    some (if neg then -v else v, s2.drop ds.length)

/-- `sscanf(reply, "%32s %6d %32s %64s", type, &pid, name, where)` in
`handle_get_backend_info_reply`; `some` corresponds to `r == 4`. -/
def sscanfBackendInfo (s : Str) : Option (Str × Int × Str × Str) :=
  match scanStr 32 s with
  | none => none
  | some (ty, s) =>
    match scanInt 6 s with
    | none => none
    | some (pid, s) =>
      match scanStr 32 s with
      | none => none
      | some (name, s) =>
        match scanStr 64 s with
        | none => none
        | some (whre, _) => some (ty, pid, name, whre)

/-- `get_backend_data_path(fd)`: `"<client-socket-path>-data-<fd>"`;
`sp` is `options->client_socket_path`. -/
def backendDataPath (sp : Str) (fd : Int) : Str :=
  sp ++ "-data-".toList ++ intStr fd

/-- `handle_get_backend_info_reply(fd)`.  Returns `none` when the fd is
not in the registry, where the source would dereference an end
iterator. -/
def handle_get_backend_info_reply (sp : Str) (st : DState) (fd : Int) :
    Option (DState × List Out) :=
  match findFd st.fdList fd with
  | none => none
  | some i =>
    let it := (st.fdList.get? i).getD FdItem.mk0
    match sscanfBackendInfo it.parser.lines with
    | none => some (st, [])        -- "Cannot register backend." (log only)
    | some (_, _, name, whre) =>
      let l := upd st.fdList i fun r =>
        { r with id := name ++ ['@'] ++ whre }
      let cmd := "SET_DATA_SOCKET ".toList ++ backendDataPath sp fd ++ ['\n']
      some ({ st with fdList := l }, [Out.write fd cmd])

/-- `handle_data_socket_reply(fd)`. -/
def handle_data_socket_reply (sp : Str) (st : DState) (fd : Int) :
    DState × List Out :=
  match findFd st.fdList fd with
  | none => (st, [])               -- "Cannot lookup fd." (log only)
  | some i =>
    let it := (st.fdList.get? i).getD FdItem.mk0
    let (st, outs) :=
      if it.parser.success then
        ({ st with default_backend := fd },
         [Out.unlinkP (backendDataPath sp fd)])
      else (st, [])
    let l := (disconnect_fds st.fdList fd).2
    ({ st with fdList := l }, outs)

/-- `handle_local_reply(message, fd)`: feed the line into the record's
parser and, on completion, dispatch on the reply's command.  `none`
models the unchecked `find_fd` dereference for an absent fd. -/
def handle_local_reply (sp : Str) (st : DState) (line : Str) (fd : Int) :
    Option (DState × List Out) :=
  match findFd st.fdList fd with
  | none => none
  | some i =>
    let l := upd st.fdList i fun r => { r with parser := r.parser.feed line }
    let st := { st with fdList := l }
    let p := ((l.get? i).getD FdItem.mk0).parser
    if p.is_completed then
      let next : Option (DState × List Out) :=
        if p.get_result = .OK then
          if p.command = "GET_BACKEND_INFO".toList then
            handle_get_backend_info_reply sp st fd
          else if p.command = "SET_DATA_SOCKET".toList then
            some (handle_data_socket_reply sp st fd)
          else some (st, [])     -- "Unknown backend reply" (log only)
        else some (st, [])       -- "Cannot handle backend reply" (log only)
      match next with
      | none => none
      | some (st, outs) =>
        some ({ st with
                fdList := upd st.fdList i fun r =>
                  { r with parser := r.parser.reset } }, outs)
    else some (st, [])

/-- `handle_backend_line(line, fd)`: route a backend reply line to the
connected client, the local handshake handler, or discard it. -/
def handle_backend_line (sp : Str) (st : DState) (line : Str) (fd : Int) :
    Bool × DState × List Out :=
  match findFd st.fdList fd with
  | none => (false, st, [])
  | some i =>
    let it := (st.fdList.get? i).getD FdItem.mk0
    if it.connected_to < 0 then
      (false, st, [])            -- unexpected reply: read & discard, log
    else if it.connected_to = 0 then
      match handle_local_reply sp st line fd with
      | some (st, outs) => (true, st, outs)
      | none => (false, st, []) -- unreachable: the fd was just found
    else
      let outs := [Out.write it.connected_to line]
      if line.take 3 = "END".toList then
        (true, { st with fdList := (disconnect_fds st.fdList fd).2 }, outs)
      else (true, st, outs)

/-- `handle_client_line(line, fd)`: forward a client command line to the
default backend, or report that no backend is available. -/
def handle_client_line (st : DState) (line : Str) (fd : Int) :
    Bool × DState × List Out :=
  let buff := line.take PACKET_SIZE
  match strtok1 (fun c => c = ' ' || c = '\t' || c = '\n' || c = '\r') buff with
  | none => (false, st, [])      -- "Empty client line."
  | some (cmdptr, _) =>
    match findFd st.fdList fd with
    | none => (false, st, [])    -- "Cannot lookup fd."
    | some _ =>
      match findFd st.fdList st.default_backend with
      | some b =>
        let l := upd st.fdList b fun r =>
          { r with parser := r.parser.reset, expected := cmdptr }
        let (_, l) := connect_fds l fd st.default_backend
        (true, { st with fdList := l },
         [Out.write st.default_backend line])
      | none =>
        (true, st,
         [Out.write fd (sendErrorStr cmdptr
            ("Backend unavailable, current: ".toList
              ++ intStr st.default_backend))])

/-! ## Control commands (lircd_commands.cpp) -/

/-- Result of `setup_backend_cmd`: either an error reply was sent and
`fdList->end()` returned, or the backend's index is returned with the
routing already connected. -/
inductive SetupRes
  | err (st : DState) (outs : List Out)
  | ok (bIdx : Nat) (st : DState)
  deriving Repr, DecidableEq

/-- Result of a command handler.  `oob` marks an out-of-range
`std::vector::operator[]` access in the source (undefined behaviour),
carrying the state and outputs produced up to that point. -/
inductive HRes
  | ret (st : DState) (outs : List Out)
  | oob (st : DState) (outs : List Out)
  deriving Repr, DecidableEq

/-- Whether a handler run hit an out-of-range vector access. -/
def HRes.isOob : HRes → Bool
  | .ret _ _ => false
  | .oob _ _ => true

/-- The dispatcher state carried by a handler result. -/
def HRes.state : HRes → DState
  | .ret st _ => st
  | .oob st _ => st

/-- The outputs carried by a handler result. -/
def HRes.outs : HRes → List Out
  | .ret _ o => o
  | .oob _ o => o

/-- `setup_backend_cmd(fd, args, msg, argcount)`: check the argument
count, look the backend up by id (`args[0]`), and connect.  The
`"%s"` bodies whose C varargs are a vector or an iterator are carried
as their format strings. -/
def setup_backend_cmd (st : DState) (fd : Int) (args : List Str)
    (msg : Str) (argcount : Nat) : SetupRes :=
  if argcount = 0 ∧ args.length < 1 then
    .err st [Out.write fd (sendErrorStr msg "Missing backend: \x22%s\x22".toList)]
  else if argcount ≠ 0 ∧ args.length ≠ argcount then
    .err st [Out.write fd (sendErrorStr msg "Bad arguments: %s".toList)]
  else
    -- both guards passed, so args is non-empty and args[0] is in range
    let arg0 := (args.get? 0).getD []
    match st.fdList.findIdx? (fun r => r.id = arg0) with
    | none =>
      .err st [Out.write fd (sendErrorStr msg "No such backend: %s".toList)]
    | some b =>
      let bfd := ((st.fdList.get? b).getD FdItem.mk0).fd
      let (_, l) := connect_fds st.fdList fd bfd
      .ok b { st with fdList := l }

/-- Common tail of `send_cmd` / `list_codes_cmd` /
`set_transmitters_cmd`: set the backend's `expected`, look the client
up, then append `" " + arguments[1] + "\n"` to the directive and write
it on the backend's command socket.  Every vector subscript is modelled
by `get?`, with `HRes.oob` for an out-of-range access. -/
def forward_with_arg1 (st : DState) (fd : Int) (commands arguments : List Str)
    (msg : Str) (internalError : Str) (b : Nat) : HRes :=
  match commands.get? 0 with
  | none => .oob st []
  | some c0 =>
    let l := upd st.fdList b fun r => { r with expected := c0 }
    let st := { st with fdList := l }
    match findFd st.fdList fd with
    | none => .ret st [Out.write fd (sendErrorStr msg internalError)]
    | some _ =>
      match arguments.get? 1 with
      | none => .oob st []
      | some a1 =>
        let bfd := ((st.fdList.get? b).getD FdItem.mk0).fd
        .ret st [Out.write bfd (c0 ++ [' '] ++ a1 ++ ['\n'])]

/-- `send_cmd` (SEND_ONCE / SEND_START / SEND_STOP): argcount 2. -/
def send_cmd (st : DState) (fd : Int) (msg args : Str) : HRes :=
  let commands := split_once msg
  let arguments := split_once args
  match setup_backend_cmd st fd arguments msg 2 with
  | .err st outs => .ret st outs
  | .ok b st =>
    forward_with_arg1 st fd commands arguments msg
      "Internal error: send_cmd: bad fd".toList b

/-- `list_codes_cmd`: argcount 2. -/
def list_codes_cmd (st : DState) (fd : Int) (msg args : Str) : HRes :=
  let commands := split_once msg
  let arguments := split_once args
  match setup_backend_cmd st fd arguments msg 2 with
  | .err st outs => .ret st outs
  | .ok b st =>
    forward_with_arg1 st fd commands arguments msg
      "Internal error: send_cmd: bad fd".toList b

/-- `set_transmitters_cmd`: argcount 0 — only `args.size() < 1` is
rejected, yet the handler later reads `arguments[1]`. -/
def set_transmitters_cmd (st : DState) (fd : Int) (msg args : Str) : HRes :=
  let commands := split_once msg
  let arguments := split_once args
  match setup_backend_cmd st fd arguments msg 0 with
  | .err st outs => .ret st outs
  | .ok b st =>
    forward_with_arg1 st fd commands arguments msg
      "Internal error: set_transmitters: bad fd".toList b

/-- `list_remotes_cmd` / `stop_backend_cmd` common tail: argcount 1, the
forwarded command is the bare directive. -/
def forward_directive (st : DState) (fd : Int) (commands : List Str)
    (msg : Str) (internalError : Str) (b : Nat) : HRes :=
  match commands.get? 0 with
  | none => .oob st []
  | some c0 =>
    let l := upd st.fdList b fun r => { r with expected := c0 }
    let st := { st with fdList := l }
    match findFd st.fdList fd with
    | none => .ret st [Out.write fd (sendErrorStr msg internalError)]
    | some _ =>
      let bfd := ((st.fdList.get? b).getD FdItem.mk0).fd
      .ret st [Out.write bfd (c0 ++ ['\n'])]

/-- `list_remotes_cmd`: argcount 1. -/
def list_remotes_cmd (st : DState) (fd : Int) (msg args : Str) : HRes :=
  let commands := split_once msg
  let arguments := split_once args
  match setup_backend_cmd st fd arguments msg 1 with
  | .err st outs => .ret st outs
  | .ok b st =>
    forward_directive st fd commands msg
      "Internal error: send_cmd: bad fd".toList b

/-- `stop_backend_cmd`: argcount 1. -/
def stop_backend_cmd (st : DState) (fd : Int) (msg args : Str) : HRes :=
  let commands := split_once msg
  let arguments := split_once args
  match setup_backend_cmd st fd arguments msg 1 with
  | .err st outs => .ret st outs
  | .ok b st =>
    forward_directive st fd commands msg
      "Internal error: stop_backend_cmd: bad fd".toList b

/-- Lowercase hex digits of a natural number, fuel-driven. -/
def natHexCore : Nat → Nat → Str
  | 0, _ => []
  | fuel + 1, n =>
    let d := n % 16
    let c := if d < 10 then Char.ofNat (48 + d) else Char.ofNat (87 + d)
    if n < 16 then [c] else natHexCore fuel (n / 16) ++ [c]

/-- `%0Nx`: zero-padded lowercase hex. -/
def hexPad (width n : Nat) : Str :=
  let ds := natHexCore (n + 1) n
  List.replicate (width - ds.length) '0' ++ ds

/-- One `%x` conversion: skip whitespace, optional `0x`/`0X` prefix,
then hex digits. -/
def scanHex (s : Str) : Option (Nat × Str) :=
  let s1 := s.dropWhile isCSpace
  let s2 := match s1 with
    | '0' :: 'x' :: r => r
    | '0' :: 'X' :: r => r
    | r => r
  let ds := s2.takeWhile fun c => c.isDigit || ('a' ≤ c && c ≤ 'f') ||
    ('A' ≤ c && c ≤ 'F')
  if ds = [] then none
  else
    let hv : Char → Nat := fun c =>
      if c.isDigit then c.toNat - 48
      else if 'a' ≤ c && c ≤ 'f' then c.toNat - 87 else c.toNat - 55
    some (ds.foldl (fun a c => a * 16 + hv c) 0, s2.drop ds.length)

/-- `Simvalues::parse`: `sscanf(input, "%64s %32s %d %x", remote,
keysym, &repeat, &scancode)`. -/
def simvaluesParse (s : Str) : Option (Str × Str × Int × Nat) :=
  match scanStr 64 s with
  | none => none
  | some (remote, s) =>
    match scanStr 32 s with
    | none => none
    | some (keysym, s) =>
      match scanInt 10 s with   -- bare %d: ten digits exceed any input here
      | none => none
      | some (rep, s) =>
        match scanHex s with
        | none => none
        | some (sc, _) => some (remote, keysym, rep, sc)

/-- `Simvalues::to_string`: `snprintf("%016x %02x %s %s", scancode,
repeat, keysym, remote)`. -/
def simvaluesToString (remote keysym : Str) (rep : Int) (sc : Nat) : Str :=
  hexPad 16 sc ++ [' '] ++ hexPad 2 rep.toNat ++ [' '] ++ keysym
    ++ [' '] ++ remote

/-- `simulate_cmd`: argcount 2; parses `arguments[1]` as simulate
values and forwards the reformatted event line. -/
def simulate_cmd (st : DState) (fd : Int) (msg args : Str) : HRes :=
  let commands := split_once msg
  let arguments := split_once args
  match setup_backend_cmd st fd arguments msg 2 with
  | .err st outs => .ret st outs
  | .ok b st =>
    match commands.get? 0 with
    | none => .oob st []
    | some c0 =>
      let l := upd st.fdList b fun r => { r with expected := c0 }
      let st := { st with fdList := l }
      match arguments.get? 1 with
      | none => .oob st []
      | some a1 =>
        match simvaluesParse a1 with
        | none =>
          let outs := [Out.write fd (sendErrorStr msg
            "Cannot parse input: %s".toList)]
          .ret { st with fdList := (disconnect_fds st.fdList fd).2 } outs
        | some (remote, keysym, rep, sc) =>
          match findFd st.fdList fd with
          | none =>
            .ret st [Out.write fd (sendErrorStr msg
              "Internal error: send_cmd: bad fd".toList)]
          | some _ =>
            let line := c0 ++ [' ']
              ++ simvaluesToString remote keysym rep sc ++ ['\n']
            let bfd := ((st.fdList.get? b).getD FdItem.mk0).fd
            .ret st [Out.write bfd line]

/-- `erase(find_last_not_of(" \n\r\t") + 1)`: trailing-whitespace trim;
an all-whitespace string erases from position 0 (npos + 1). -/
def trimTrailWS (s : Str) : Str :=
  (s.reverse.dropWhile isWS).reverse

/-- `set_default_backend_cmd(fd, msg, args)`: linear scan of the whole
registry for the first record (of any kind) whose id equals the
trimmed argument. -/
def set_default_backend_cmd (st : DState) (fd : Int) (msg args : Str) : HRes :=
  let new_backend := trimTrailWS args
  match st.fdList.findIdx? (fun r => r.id = new_backend) with
  | none =>
    .ret st [Out.write fd (sendErrorStr msg "No such backend: %s\n".toList)]
  | some i =>
    let it := (st.fdList.get? i).getD FdItem.mk0
    .ret { st with default_backend := it.fd }
      [Out.write fd (sendSuccessStr msg)]

/-- `find_new_default_backend()`: the first record of kind BACKEND_CMD,
or -1. -/
def find_new_default_backend (st : DState) : DState :=
  match st.fdList.findIdx? (fun r => r.kind = FdKind.BACKEND_CMD) with
  | none => { st with default_backend := -1 }
  | some i =>
    { st with
      default_backend := ((st.fdList.get? i).getD FdItem.mk0).fd }

/-! ## Event dispatch (`process_item_input` / `main_loop`, lircd.cpp) -/

/-- External events the dispatcher reacts to: a complete line read from
a client/control stream, a complete line read from a backend command
socket, a heartbeat tick, and POLLERR/POLLNVAL/POLLHUP on an fd (all
three are handled identically by `remove_and_log`). -/
inductive Ev
  | clientLine (fd : Int) (line : Str)
  | backendLine (fd : Int) (line : Str)
  | tick
  | pollhup (fd : Int)

/-- One event-loop reaction: line handlers that return false make
`get_line` fail, upon which `process_item_input` removes the record
with `remove_and_log` (which calls `FdList::remove_client`, erasing
only the one record) and, for backend sockets, picks a new default
backend. -/
def stepEv (sp : Str) (st : DState) (e : Ev) : DState × List Out :=
  match e with
  | .clientLine fd line =>
    let (ok, st, outs) := handle_client_line st line fd
    if ok then (st, outs)
    else ({ st with fdList := removeClient st.fdList fd }, outs)
  | .backendLine fd line =>
    let (ok, st, outs) := handle_backend_line sp st line fd
    if ok then (st, outs)
    else
      (find_new_default_backend
        { st with fdList := removeClient st.fdList fd }, outs)
  | .tick =>
    let (l, outs) := dosigalrm st.fdList
    ({ st with fdList := l }, outs)
  | .pollhup fd =>
    ({ st with fdList := removeClient st.fdList fd }, [])

/-- Run a list of events, concatenating the emitted output. -/
def runEvents (sp : Str) (st : DState) : List Ev → DState × List Out
  | [] => (st, [])
  | e :: es =>
    let (st1, o1) := stepEv sp st e
    let (st2, o2) := runEvents sp st1 es
    (st2, o1 ++ o2)

/-! ## Heartbeat-pass well-formedness (C3) -/

/-- Registry well-formedness assumed by the heartbeat pass: fds are
distinct and positive, and every stream record's routing is either
idle (`-1`) or points at the fd of a BACKEND_CMD record. -/
def GoodNow (l : List FdItem) : Prop :=
  (l.map FdItem.fd).Nodup ∧ (∀ r ∈ l, 0 < r.fd) ∧
  (∀ r ∈ l, r.clientish = true → r.connected_to ≠ -1 →
    ∃ b ∈ l, b.fd = r.connected_to ∧ b.kind = FdKind.BACKEND_CMD)

instance goodNowDecidable (l : List FdItem) : Decidable (GoodNow l) := by
  unfold GoodNow
  infer_instance

/-- The net effect of one `dosigalrm` pass on a stream record: an armed
counter is decremented, one that hits zero is disarmed with the routing
cleared, a disarmed one is untouched. -/
def tickedClient (r : FdItem) : FdItem :=
  if 1 < r.ticks then { r with ticks := r.ticks - 1 }
  else if r.ticks = 1 then { r with connected_to := -1, ticks := -1 }
  else r

/-- The socket writes of an output trace that are directed at one
fd. -/
def outsTo (fd : Int) (outs : List Out) : List Out :=
  outs.filter fun o => match o with
    | Out.write f _ => f = fd
    | Out.unlinkP _ => false

/-- Pointwise relation between a registry and its evolution through
heartbeat steps: length, fds, kinds and expected directives are
unchanged, and each `connected_to` is either unchanged or cleared. -/
def TickEvolved (l l' : List FdItem) : Prop :=
  l.length = l'.length ∧
  ∀ j r, l.get? j = some r → ∃ r', l'.get? j = some r'
    ∧ r'.fd = r.fd ∧ r'.kind = r.kind ∧ r'.expected = r.expected
    ∧ (r'.connected_to = r.connected_to ∨ r'.connected_to = -1)

/-- Witness registry for the heartbeat-pass theorem: a backend pair
(cmd fd 5, data fd 4), a client (fd 10, position 5) one tick from
timing out on a SEND_ONCE routed to fd 5, and a control client (fd 7,
position 6) mid-flight with seven ticks left. -/
def c3List : List FdItem :=
  upd (upd (addCtrlClient (addClient (addBackend (initialFdList 1 2 3) 5 4)
        10) 7) 5
      (fun r => { r with connected_to := 5, ticks := 1,
                         expected := "SEND_ONCE".toList })) 6
    (fun r => { r with connected_to := 5, ticks := 7,
                       expected := "LIST".toList })

/-! ## Routing-symmetry machinery (C2) -/

/-- Basic registry well-formedness for the routing claims: distinct,
positive fds. -/
def WFfd (l : List FdItem) : Prop :=
  (l.map FdItem.fd).Nodup ∧ ∀ r ∈ l, 0 < r.fd

instance wffdDecidable (l : List FdItem) : Decidable (WFfd l) := by
  unfold WFfd
  infer_instance

/-- The strict routing invariant: whenever a record points at another
record's fd, that record points straight back, and the pointer is
unique.  (Records with the local sentinel 0 are never pointed at.) -/
def InvStrong (l : List FdItem) : Prop :=
  ∀ i a j b, l.get? i = some a → l.get? j = some b →
    a.connected_to = b.fd →
    b.connected_to = a.fd
    ∧ ∀ k a', l.get? k = some a' → a'.connected_to = b.fd → k = i

/-- The guard under which a `connect_fds(c, b)` call keeps the routing
relation symmetric: the two fds differ, the backend end is present and
idle, and the client end is the local sentinel or present and idle. -/
def ConnGuard (l : List FdItem) (c b : Int) : Prop :=
  (c = 0 ∨ ∃ rc ∈ l, rc.fd = c ∧ rc.connected_to = -1)
  ∧ (∃ rb ∈ l, rb.fd = b ∧ rb.connected_to = -1)
  ∧ c ≠ b

instance connGuardDecidable (l : List FdItem) (c b : Int) :
    Decidable (ConnGuard l c b) := by
  unfold ConnGuard
  infer_instance

/-- States reachable from `l0` by `connect_fds` calls satisfying
`ConnGuard` and arbitrary `disconnect_fds` calls. -/
inductive GRoute : List FdItem → List FdItem → Prop
  | refl (l : List FdItem) : GRoute l l
  | conn (l0 l : List FdItem) (c b : Int) :
      GRoute l0 l → ConnGuard l c b → GRoute l0 (connect_fds l c b).2
  | disc (l0 l : List FdItem) (f : Int) :
      GRoute l0 l → GRoute l0 (disconnect_fds l f).2

/-- Witness registry for the guarded-routing theorem: the three listen
sockets, a backend pair (cmd fd 5, data fd 4) and a client (fd 10),
all idle. -/
def c2WitList : List FdItem :=
  addClient (addBackend (initialFdList 1 2 3) 5 4) 10


/-! ## Fixtures: small concrete registries used by individual claims -/

/-- A registered backend (cmd fd 5, data fd 4) plus one client (fd 10);
fd 5 is the default backend. -/
def stBClient : DState :=
  { fdList := addClient (addBackend (initialFdList 1 2 3) 5 4) 10,
    default_backend := 5 }

/-- A registered backend (cmd fd 5, data fd 4, id `acme@/dev/ir0`) plus
one control client (fd 7); fd 5 is the default backend. -/
def stBCtrl : DState :=
  { fdList :=
      upd (addCtrlClient (addBackend (initialFdList 1 2 3) 5 4) 7) 4
        (fun r => { r with id := "acme@/dev/ir0".toList }),
    default_backend := 5 }

/-- The registry of the C7 scenario: one backend pair, no clients. -/
def c7State : DState :=
  { fdList := addBackend (initialFdList 1 2 3) 5 4, default_backend := 5 }

/-- The registry of the C8 counterexample: just the three listen
sockets (whose records carry the placeholder id `undef`). -/
def c8State : DState :=
  { fdList := initialFdList 1 2 3, default_backend := -1 }

/-- The registry of the C10 counterexample: backend pair (cmd fd 6,
data fd 9, id `b1@dev0`) and a control client fd 8. -/
def c10State : DState :=
  { fdList :=
      upd (addCtrlClient (addBackend (initialFdList 1 2 3) 6 9) 8) 4
        (fun r => { r with id := "b1@dev0".toList }),
    default_backend := 6 }

/-- Fixture for the C6 witness: a ReplyParser one `END` line short of
completing the GET_BACKEND_INFO reply of the handshake scenario. -/
def c6InfoParser : ReplyParser :=
  { state := .ENDS, command := "GET_BACKEND_INFO".toList,
    lines := "std 4711 acme /dev/ir0\n".toList, last_line := [],
    line_count := 0, success := true }

/-- Fixture for the C6 witness: a ReplyParser one `END` line short of
completing the (payload-free) SET_DATA_SOCKET reply. -/
def c6DataParser : ReplyParser :=
  { state := .DATA, command := "SET_DATA_SOCKET".toList, lines := [],
    last_line := [], line_count := 0, success := true }

/-- The backend command record (fd 5) of the C6 witness, mid-handshake
(`connected_to = 0`), with a given parser state. -/
def c6Rec (p : ReplyParser) : FdItem :=
  { fd := 5, kind := .BACKEND_CMD, pid := 0, peer := 4,
    connected_to := 0, id := "undef".toList, expected := "NONE".toList,
    ticks := -1, parser := p }

/-- A registry whose backend pair's command record is mid-handshake
with the given parser. -/
def c6State (p : ReplyParser) : DState :=
  { fdList := upd (addBackend (initialFdList 1 2 3) 5 4) 4
      (fun r => { r with connected_to := 0, parser := p }),
    default_backend := -1 }

/-- The registry of the C2 counterexample: a registered backend
(cmd fd 5, data fd 4) and two clients (fds 10 and 11); fd 5 is the
default backend. -/
def c2State : DState :=
  { fdList := addClient (addClient (addBackend (initialFdList 1 2 3) 5 4) 10)
      11,
    default_backend := 5 }

/-- The events of the C1 scenario: client 10 sends a second command
while the first is still in flight; the backend then answers the first
command and begins answering the second. -/
def c1Events : List Ev :=
  [ .clientLine 10 "SEND_ONCE r KEY_1\n".toList,
    .clientLine 10 "SEND_ONCE r KEY_2\n".toList,
    .backendLine 5 "BEGIN\n".toList,
    .backendLine 5 "SEND_ONCE r KEY_1\n".toList,
    .backendLine 5 "SUCCESS\n".toList,
    .backendLine 5 "END\n".toList,
    .backendLine 5 "BEGIN\n".toList ]

/-! ## C1 -/

/-- C1: the dispatcher does *not* deliver exactly one terminal reply per
client command line.  In this run the client (fd 10) sends two command
lines and never disconnects, yet the entire output of the run contains
exactly one terminal reply to it (the END-terminated reply to the first
command): the backend's answer to the second command is discarded
because the routing was already dissolved, the backend record is then
removed, and the client ends idle with its timeout counter disarmed
(ticks = -1), so no TIMEOUT reply can ever follow either. -/
theorem c1_second_command_gets_no_terminal_reply :
    (runEvents [] stBClient c1Events).2
      = [Out.write 5 "SEND_ONCE r KEY_1\n".toList,
         Out.write 5 "SEND_ONCE r KEY_2\n".toList,
         Out.write 10 "BEGIN\n".toList,
         Out.write 10 "SEND_ONCE r KEY_1\n".toList,
         Out.write 10 "SUCCESS\n".toList,
         Out.write 10 "END\n".toList]
    ∧ ((runEvents [] stBClient c1Events).1.fdList.map
         (fun r => (r.fd, r.connected_to, r.ticks)))
      = [(1, -1, -1), (2, -1, -1), (3, -1, -1), (4, -1, -1), (10, -1, -1)]
    ∧ ((runEvents [] stBClient c1Events).2.countP
         (fun o => match o with
                   | Out.write 10 d => decide (d.take 3 = "END".toList)
                   | _ => false)) = 1 := by
  refine ⟨by decide, by decide, by decide⟩

/-! ## C4 -/

/-- C4: a further command line arriving while the same client has a
command in flight *is* dispatched immediately.  After the first command
line, client 10 is routed to backend 5 (ticks armed); the second
command line is nevertheless forwarded to backend 5 right away and the
routing is re-armed — contradicting the hold-until-reply-or-timeout
behaviour (which the source's own header comment also states). -/
theorem c4_second_line_dispatched_while_in_flight :
    ((runEvents [] stBClient
        [Ev.clientLine 10 "LIST r1\n".toList]).1.fdList.map
          (fun r => (r.fd, r.connected_to, r.ticks)))
      = [(1, -1, -1), (2, -1, -1), (3, -1, -1), (4, -1, -1),
         (5, 10, -1), (10, 5, 20)]
    ∧ (runEvents [] stBClient
        [Ev.clientLine 10 "LIST r1\n".toList,
         Ev.clientLine 10 "LIST r2\n".toList]).2
      = [Out.write 5 "LIST r1\n".toList, Out.write 5 "LIST r2\n".toList] := by
  refine ⟨by decide, by decide⟩

/-! ## C2 (counterexample) -/

/-- C2: the routing relation is *not* symmetric-up-to-sentinel in every
state reachable by `connect_fds` calls as made by the command handlers.
Two clients (fds 10 and 11) each send a command; the second
`connect_fds(11, 5)` overwrites the backend's `connected_to` while
client 10 still points at the backend: record 10 has
`connected_to = 5` but record 5 has `connected_to = 11`, which is
neither 10 nor the local sentinel 0 — and two clients are now
simultaneously connected to backend 5. -/
theorem c2_symmetry_broken_by_second_connect :
    ((runEvents [] c2State
        [Ev.clientLine 10 "LIST a\n".toList,
         Ev.clientLine 11 "LIST b\n".toList]).1.fdList.map
          (fun r => (r.fd, r.connected_to)))
      = [(1, -1), (2, -1), (3, -1), (4, -1), (5, 11), (10, 5), (11, 5)]
    ∧ ((11 : Int) ≠ 10 ∧ (11 : Int) ≠ 0) := by
  refine ⟨by decide, by decide, by decide⟩

/-! ## C7 -/

/-- C7: removing one record of a backend pair does *not* remove the
other.  POLLHUP on the command fd 5 goes through `remove_and_log`,
which calls `FdList::remove_client` (see the source's `FIXME: Make
remove generic`): the BACKEND_DATA record fd 4 is still in the registry
afterwards, with no further pending work that could remove it. -/
theorem c7_peer_record_left_behind :
    ((stepEv [] c7State (Ev.pollhup 5)).1.fdList.map
        (fun r => (r.fd, r.kind)))
      = [(1, FdKind.CLIENT), (2, FdKind.BACKEND), (3, FdKind.CTRL),
         (4, FdKind.BACKEND_DATA)]
    ∧ findFd (stepEv [] c7State (Ev.pollhup 5)).1.fdList 5 = none := by
  refine ⟨by decide, by decide⟩

/-! ## C9 -/

/-- C9: `set_transmitters_cmd` invoked with a wrong argument count (one
argument instead of `<id> <mask>`) does not reject the command: it
passes `setup_backend_cmd` with `argcount = 0`, connects the control
client (fd 7) to the backend (fd 5) — arming its ticks — sends no ERROR
reply, and then performs the out-of-range `arguments[1]` access. -/
theorem c9_set_transmitters_wrong_arity_not_validated :
    (set_transmitters_cmd stBCtrl 7 "SET_TRANSMITTERS acme@/dev/ir0\n".toList
        "acme@/dev/ir0\n".toList).isOob = true
    ∧ (set_transmitters_cmd stBCtrl 7
        "SET_TRANSMITTERS acme@/dev/ir0\n".toList
        "acme@/dev/ir0\n".toList).outs = []
    ∧ ((set_transmitters_cmd stBCtrl 7
        "SET_TRANSMITTERS acme@/dev/ir0\n".toList
        "acme@/dev/ir0\n".toList).state.fdList.map
          (fun r => (r.fd, r.connected_to, r.ticks)))
      = [(1, -1, -1), (2, -1, -1), (3, -1, -1), (4, -1, -1),
         (5, 7, -1), (7, 5, 20)]
    ∧ split_once "acme@/dev/ir0\n".toList = ["acme@/dev/ir0".toList] := by
  refine ⟨by decide, by decide, by decide, by decide⟩

/-! ## Helper lemmas on list search -/

/-- Specification of `List.findIdx?`: a found index holds a matching
element. -/
lemma findIdxQ_some_spec {α : Type} (p : α → Bool) :
    ∀ (l : List α) (i : Nat), l.findIdx? p = some i →
      ∃ r, l.get? i = some r ∧ p r = true := by
  intro l
  induction l with
  | nil => intro i h; simp [List.findIdx?] at h
  | cons a t ih =>
    intro i h
    rw [List.findIdx?_cons] at h
    by_cases hp : p a
    · simp [hp] at h
      subst h
      exact ⟨a, rfl, hp⟩
    · simp [hp] at h
      obtain ⟨j, hj, hij⟩ := h
      obtain ⟨r, hr, hpr⟩ := ih j hj
      subst hij
      exact ⟨r, by simpa using hr, hpr⟩

/-! ## C8 -/

/-- C8: the default-backend invariant fails after SET_DEFAULT_BACKEND.
On a registry holding only the three listen sockets, the command
`SET_DEFAULT_BACKEND undef` matches the placeholder id `undef` of the
first record, sets the default backend to fd 1 — a record of kind
CLIENT (the client listen socket) whose handshake id is still the
placeholder — and reports success. -/
theorem c8_default_backend_not_backend_cmd :
    (set_default_backend_cmd c8State 7 "SET_DEFAULT_BACKEND undef\n".toList
        "undef\n".toList)
      = HRes.ret { c8State with default_backend := 1 }
          [Out.write 7 (sendSuccessStr "SET_DEFAULT_BACKEND undef\n".toList)]
    ∧ (c8State.fdList.map (fun r => (r.fd, r.kind, r.id)))
      = [(1, FdKind.CLIENT, "undef".toList),
         (2, FdKind.BACKEND, "undef".toList),
         (3, FdKind.CTRL, "undef".toList)] := by
  refine ⟨by decide, by decide⟩

/-- C8 (amended): what the two default-backend updates actually
guarantee.  `find_new_default_backend` leaves the default at -1 or
points it at a record of kind BACKEND_CMD (possibly one whose
handshake has not completed); `set_default_backend_cmd` points it at
the first registry record — of any kind — whose id equals the
whitespace-trimmed argument. -/
theorem c8_amended_default_backend :
    (∀ st : DState,
      (find_new_default_backend st).default_backend = -1 ∨
      ∃ r ∈ st.fdList,
        r.fd = (find_new_default_backend st).default_backend ∧
        r.kind = FdKind.BACKEND_CMD)
    ∧ (∀ (st : DState) (fd : Int) (msg args : Str) (i : Nat),
        st.fdList.findIdx? (fun r => r.id = trimTrailWS args) = some i →
        ∃ r, st.fdList.get? i = some r ∧ r.id = trimTrailWS args ∧
          set_default_backend_cmd st fd msg args
            = HRes.ret { st with default_backend := r.fd }
                [Out.write fd (sendSuccessStr msg)]) := by
  constructor
  · intro st
    unfold find_new_default_backend
    cases h : st.fdList.findIdx? (fun r => r.kind = FdKind.BACKEND_CMD) with
    | none => left; rfl
    | some i =>
      right
      obtain ⟨r, hr, hpr⟩ :=
        findIdxQ_some_spec (fun r => r.kind = FdKind.BACKEND_CMD) st.fdList i h
      refine ⟨r, List.get?_mem hr, ?_, by simpa using hpr⟩
      simp [h, List.get?_eq_getElem?] at hr ⊢
      simp [hr]
  · intro st fd msg args i h
    obtain ⟨r, hr, hpr⟩ :=
      findIdxQ_some_spec (fun r => r.id = trimTrailWS args) st.fdList i h
    refine ⟨r, hr, by simpa using hpr, ?_⟩
    rw [List.get?_eq_getElem?] at hr
    simp [set_default_backend_cmd, h, hr]

/-- Witness for `c8_amended_default_backend`: applying both parts on a
concrete registry with one registered backend. -/
theorem c8_amended_default_backend_witness :
    ((find_new_default_backend stBCtrl).default_backend = -1 ∨
      ∃ r ∈ stBCtrl.fdList,
        r.fd = (find_new_default_backend stBCtrl).default_backend ∧
        r.kind = FdKind.BACKEND_CMD)
    ∧ ∃ r, stBCtrl.fdList.get? 4 = some r ∧
        r.id = trimTrailWS "acme@/dev/ir0\n".toList ∧
        set_default_backend_cmd stBCtrl 7 "SET_DEFAULT_BACKEND\n".toList
            "acme@/dev/ir0\n".toList
          = HRes.ret { stBCtrl with default_backend := r.fd }
              [Out.write 7 (sendSuccessStr "SET_DEFAULT_BACKEND\n".toList)] :=
  ⟨c8_amended_default_backend.1 stBCtrl,
   c8_amended_default_backend.2 stBCtrl 7 "SET_DEFAULT_BACKEND\n".toList
     "acme@/dev/ir0\n".toList 4 (by decide)⟩

/-! ## C10 -/

/-- C10: not every command handler's `arguments[0]` / `arguments[1]`
access is guarded by the corresponding element count.  With the
argument string `b1@dev0` (a registered backend id and nothing else),
`split_once` returns a one-element vector, yet `set_transmitters_cmd`
reaches its `arguments[1]` access (out of range). -/
theorem c10_access_not_guarded_by_element_count :
    split_once "b1@dev0\n".toList = ["b1@dev0".toList]
    ∧ (set_transmitters_cmd c10State 8 "SET_TRANSMITTERS b1@dev0\n".toList
        "b1@dev0\n".toList).isOob = true := by
  refine ⟨by decide, by decide⟩

/-- Helper: `strtok1` finds nothing exactly on an all-delimiter
string. -/
lemma strtok1_none_iff (d : Char → Bool) (s : Str) :
    strtok1 d s = none ↔ s.dropWhile d = [] := by
  unfold strtok1
  by_cases h : s.dropWhile d = [] <;> simp [h]

/-- Helper: the token and continuation produced by a successful
`strtok1`. -/
lemma strtok1_some (d : Char → Bool) (s : Str)
    (h : s.dropWhile d ≠ []) :
    strtok1 d s = some ((s.dropWhile d).takeWhile (fun c => ¬ d c),
      ((s.dropWhile d).dropWhile (fun c => ¬ d c)).drop 1) := by
  unfold strtok1
  simp [h]

/-- Helper: the argument-count guards that `setup_backend_cmd` must
have passed to return a backend. -/
lemma setup_ok_args_len {st : DState} {fd : Int} {args : List Str}
    {msg : Str} {c : Nat} {b : Nat} {st' : DState}
    (h : setup_backend_cmd st fd args msg c = .ok b st') :
    (c ≠ 0 → args.length = c) ∧ 1 ≤ args.length := by
  unfold setup_backend_cmd at h
  by_cases h1 : c = 0 ∧ args.length < 1
  · rw [if_pos h1] at h
    exact SetupRes.noConfusion h
  · by_cases h2 : c ≠ 0 ∧ args.length ≠ c
    · rw [if_neg h1, if_pos h2] at h
      exact SetupRes.noConfusion h
    · constructor
      · intro hc
        by_contra hne
        exact h2 ⟨hc, hne⟩
      · by_cases hc : c = 0
        · by_contra hlt
          exact h1 ⟨hc, by omega⟩
        · have : args.length = c := by
            by_contra hne
            exact h2 ⟨hc, hne⟩
          omega

/-- Helper: a non-empty list answers `get? 0`. -/
lemma getQ_zero_of_ne_nil {α : Type} {l : List α} (h : l ≠ []) :
    ∃ a, l.get? 0 = some a := by
  cases l with
  | nil => exact absurd rfl h
  | cons a t => exact ⟨a, rfl⟩

/-- Helper: a two-element count answers `get? 1`. -/
lemma getQ_one_of_len_two {α : Type} {l : List α} (h : l.length = 2) :
    ∃ a, l.get? 1 = some a := by
  match l, h with
  | [a, b], _ => exact ⟨b, rfl⟩

/-- Helper: a two-branch option match is not `oob` when neither branch
is. -/
lemma isOob_match_opt {α : Type} (o : Option α) (r1 : HRes) (r2 : α → HRes)
    (h1 : r1.isOob = false) (h2 : ∀ a, (r2 a).isOob = false) :
    (match o with | none => r1 | some a => r2 a).isOob = false := by
  cases o with
  | none => exact h1
  | some a => exact h2 a

/-- Helper: `forward_with_arg1` performs no out-of-range access when
both subscripts are in range. -/
lemma forward_with_arg1_not_oob (st : DState) (fd : Int)
    (commands arguments : List Str) (msg ie : Str) (b : Nat)
    {c0 a1 : Str} (hc0 : commands.get? 0 = some c0)
    (ha1 : arguments.get? 1 = some a1) :
    (forward_with_arg1 st fd commands arguments msg ie b).isOob = false := by
  simp only [forward_with_arg1, hc0, ha1]
  split <;> rfl

/-- Helper: `forward_directive` performs no out-of-range access when
the directive subscript is in range. -/
lemma forward_directive_not_oob (st : DState) (fd : Int)
    (commands : List Str) (msg ie : Str) (b : Nat)
    {c0 : Str} (hc0 : commands.get? 0 = some c0) :
    (forward_directive st fd commands msg ie b).isOob = false := by
  simp only [forward_directive, hc0]
  split <;> rfl

/-- C10 (amended): `split_once` returns zero, one, or two elements —
empty exactly when the input holds no token; otherwise the first
element is the first whitespace-delimited token, and a second element,
the remainder of the line, is present exactly when that remainder is
non-empty.  Every handler that accesses `arguments[1]` behind an
argument count of two (`send_cmd`, `list_codes_cmd`, `simulate_cmd`)
as well as the one-argument handlers never perform an out-of-range
access (provided the message itself holds a directive token);
`set_transmitters_cmd` is the exception established separately. -/
theorem c10_amended_split_once_characterization :
    (∀ s : Str, (split_once s).length ≤ 2)
    ∧ (∀ s : Str, split_once s = [] ↔ ∀ c ∈ s, isTokDelim c = true)
    ∧ (∀ s : Str, split_once s ≠ [] →
        split_once s =
          if specRemainder s = [] then [specFirstTok s]
          else [specFirstTok s,
                (specRemainder s).takeWhile (fun c => ¬ isNl c)])
    ∧ (∀ (st : DState) (fd : Int) (msg args : Str), split_once msg ≠ [] →
        (send_cmd st fd msg args).isOob = false
        ∧ (list_codes_cmd st fd msg args).isOob = false
        ∧ (simulate_cmd st fd msg args).isOob = false
        ∧ (list_remotes_cmd st fd msg args).isOob = false
        ∧ (stop_backend_cmd st fd msg args).isOob = false) := by
  have hlen : ∀ s : Str, (split_once s).length ≤ 2 := by
    intro s
    unfold split_once
    by_cases hs : s = []
    · simp [hs]
    · rw [if_neg hs]
      cases h1 : strtok1 isTokDelim s with
      | none => simp
      | some tr =>
        obtain ⟨tok, rest⟩ := tr
        cases h2 : strtok1 isNl rest with
        | none => simp [h2]
        | some tr2 => obtain ⟨t2, r2⟩ := tr2; simp [h2]
  have hnil : ∀ s : Str, split_once s = [] ↔ ∀ c ∈ s, isTokDelim c = true := by
    intro s
    by_cases hs : s = []
    · simp [split_once, hs]
    · rw [split_once, if_neg hs]
      by_cases hdw : s.dropWhile isTokDelim = []
      · rw [(strtok1_none_iff _ _).mpr hdw]
        simpa using List.dropWhile_eq_nil_iff.mp hdw
      · simp only [strtok1_some _ _ hdw]
        cases h2 : strtok1 isNl
            (((s.dropWhile isTokDelim).dropWhile
              (fun c => ¬ isTokDelim c)).drop 1) with
        | none =>
          simp only [h2]
          constructor
          · intro h; exact absurd h (by simp)
          · intro h
            exact absurd (List.dropWhile_eq_nil_iff.mpr h) hdw
        | some tr =>
          obtain ⟨a, b⟩ := tr
          simp only [h2]
          constructor
          · intro h; exact absurd h (by simp)
          · intro h
            exact absurd (List.dropWhile_eq_nil_iff.mpr h) hdw
  refine ⟨hlen, hnil, ?_, ?_⟩
  · intro s hne
    have hs : s ≠ [] := by
      intro h; exact hne (by simp [split_once, h])
    have hdw : s.dropWhile isTokDelim ≠ [] := by
      intro h
      exact hne ((hnil s).mpr (List.dropWhile_eq_nil_iff.mp h))
    rw [split_once, if_neg hs]
    simp only [strtok1_some _ _ hdw]
    by_cases h2 : specRemainder s = []
    · have h2' : (((s.dropWhile isTokDelim).dropWhile
          (fun c => ¬ isTokDelim c)).drop 1).dropWhile isNl = [] := h2
      simp only [(strtok1_none_iff _ _).mpr h2', if_pos h2]
      rfl
    · have h2' : (((s.dropWhile isTokDelim).dropWhile
          (fun c => ¬ isTokDelim c)).drop 1).dropWhile isNl ≠ [] := h2
      simp only [strtok1_some _ _ h2', if_neg h2]
      rfl
  · intro st fd msg args hmsg
    have hc0 : ∃ a, (split_once msg).get? 0 = some a := getQ_zero_of_ne_nil hmsg
    obtain ⟨c0, hc0⟩ := hc0
    have harg2 : ∀ {b : Nat} {st' : DState},
        setup_backend_cmd st fd (split_once args) msg 2 = .ok b st' →
        ∃ a, (split_once args).get? 1 = some a := by
      intro b st' h
      exact getQ_one_of_len_two ((setup_ok_args_len h).1 (by omega))
    refine ⟨?_, ?_, ?_, ?_, ?_⟩
    · simp only [send_cmd]
      cases h : setup_backend_cmd st fd (split_once args) msg 2 with
      | err st' outs => rfl
      | ok b st' =>
        obtain ⟨a1, ha1⟩ := harg2 h
        exact forward_with_arg1_not_oob _ _ _ _ _ _ _ hc0 ha1
    · simp only [list_codes_cmd]
      cases h : setup_backend_cmd st fd (split_once args) msg 2 with
      | err st' outs => rfl
      | ok b st' =>
        obtain ⟨a1, ha1⟩ := harg2 h
        exact forward_with_arg1_not_oob _ _ _ _ _ _ _ hc0 ha1
    · simp only [simulate_cmd]
      cases h : setup_backend_cmd st fd (split_once args) msg 2 with
      | err st' outs => rfl
      | ok b st' =>
        obtain ⟨a1, ha1⟩ := harg2 h
        simp only [hc0, ha1]
        split
        · rfl
        · split <;> rfl
    · simp only [list_remotes_cmd]
      cases h : setup_backend_cmd st fd (split_once args) msg 1 with
      | err st' outs => rfl
      | ok b st' => exact forward_directive_not_oob _ _ _ _ _ _ hc0
    · simp only [stop_backend_cmd]
      cases h : setup_backend_cmd st fd (split_once args) msg 1 with
      | err st' outs => rfl
      | ok b st' => exact forward_directive_not_oob _ _ _ _ _ _ hc0

/-! ## Helper lemmas on registry updates -/

/-- `findIdx?` ignores a `set` that does not change the predicate's
verdict. -/
lemma findIdxQ_set_congr {α : Type} (p : α → Bool) :
    ∀ (l : List α) (i : Nat) (a : α),
      (∀ r, l.get? i = some r → p a = p r) →
      (l.set i a).findIdx? p = l.findIdx? p := by
  intro l
  induction l with
  | nil => intro i a _; simp
  | cons x t ih =>
    intro i a h
    cases i with
    | zero =>
      have hx := h x rfl
      simp only [List.set]
      rw [List.findIdx?_cons, List.findIdx?_cons, hx]
    | succ n =>
      simp only [List.set]
      rw [List.findIdx?_cons, List.findIdx?_cons]
      by_cases hx : p x
      · simp [hx]
      · simp only [hx, if_neg, Bool.false_eq_true]
        rw [List.findIdx?_succ, List.findIdx?_succ, ih n a (fun r hr => h r hr)]

/-- `findFd` is unchanged by a field update that keeps the fd. -/
lemma findFd_upd (l : List FdItem) (i : Nat) (f : FdItem → FdItem)
    (hf : ∀ r, (f r).fd = r.fd) (x : Int) :
    findFd (upd l i f) x = findFd l x := by
  unfold upd
  cases hg : l.get? i with
  | none => rfl
  | some r =>
    unfold findFd
    apply findIdxQ_set_congr
    intro r' hr'
    rw [hg] at hr'
    cases hr'
    simp [hf]

/-- Reading back the updated index. -/
lemma upd_get_same {l : List FdItem} {i : Nat} {r : FdItem}
    (f : FdItem → FdItem) (h : l.get? i = some r) :
    (upd l i f).get? i = some (f r) := by
  unfold upd
  rw [h]
  have hlt : i < l.length := by
    by_contra hge
    rw [List.get?_eq_none.mpr (by omega)] at h
    cases h
  rw [List.get?_set_eq]
  rw [h]
  rfl

/-- Reading another index through an update. -/
lemma upd_get_other {l : List FdItem} {i j : Nat}
    (f : FdItem → FdItem) (h : i ≠ j) :
    (upd l i f).get? j = l.get? j := by
  unfold upd
  cases hg : l.get? i with
  | none => rfl
  | some r => exact List.get?_set_ne _ _ h

/-- Updates preserve the registry's length. -/
lemma upd_length (l : List FdItem) (i : Nat) (f : FdItem → FdItem) :
    (upd l i f).length = l.length := by
  unfold upd
  cases l.get? i <;> simp

/-- `disconnect_fds` always leaves the disconnected record itself with
`connected_to = -1`, preserving its other identity fields. -/
lemma disconnect_clears_me (l : List FdItem) (fd : Int) (i : Nat) (r : FdItem)
    (hi : findFd l fd = some i) (hr : l.get? i = some r) :
    ∃ r', ((disconnect_fds l fd).2).get? i = some r'
      ∧ r'.connected_to = -1 ∧ r'.id = r.id ∧ r'.fd = r.fd
      ∧ r'.parser = r.parser ∧ r'.kind = r.kind := by
  unfold disconnect_fds
  rw [hi]
  simp only [hr, Option.getD_some]
  by_cases h0 : r.connected_to = 0
  · rw [if_pos h0]
    exact ⟨_, upd_get_same _ hr, rfl, rfl, rfl, rfl, rfl⟩
  · rw [if_neg h0]
    by_cases hm1 : r.connected_to = -1
    · rw [if_pos hm1]
      exact ⟨_, upd_get_same _ hr, hm1, rfl, rfl, rfl, rfl⟩
    · rw [if_neg hm1]
      have hget2 := upd_get_same (fun q => { q with ticks := (-1 : Int) }) hr
      have hget3 := upd_get_same
        (fun q => { q with connected_to := (-1 : Int) }) hget2
      cases ho : findFd (upd l i fun q => { q with ticks := (-1 : Int) })
          r.connected_to with
      | none => exact ⟨_, hget3, rfl, rfl, rfl, rfl, rfl⟩
      | some o =>
        by_cases hoi : o = i
        · subst hoi
          exact ⟨_, upd_get_same _ hget3, rfl, rfl, rfl, rfl, rfl⟩
        · have hg := hget3
          rw [← upd_get_other
            (fun r => { r with connected_to := (-1 : Int),
                               ticks := (-1 : Int) }) hoi] at hg
          exact ⟨_, hg, rfl, rfl, rfl, rfl, rfl⟩

/-! ## C6 -/

/-- C6: the two handshake postconditions.  If feeding `line` completes
the record's parser as DONE with success on command GET_BACKEND_INFO
and the payload scans as `<type> <pid> <driver> <device>`, the
dispatcher sets the record's id to `driver@device` and writes
`SET_DATA_SOCKET <pipe-path>` on the same fd.  If it completes as DONE
with success on command SET_DATA_SOCKET, the dispatcher makes this fd
the default backend, unlinks the pipe path, and clears the record's
`connected_to`. -/
theorem c6_handshake_postconditions (sp : Str) (st : DState) (fd : Int)
    (i : Nat) (line : Str) (r : FdItem)
    (hi : findFd st.fdList fd = some i)
    (hr : st.fdList.get? i = some r) :
    (∀ ty pid name whre,
      (r.parser.feed line).state = PState.DONE →
      (r.parser.feed line).success = true →
      (r.parser.feed line).command = "GET_BACKEND_INFO".toList →
      sscanfBackendInfo (r.parser.feed line).lines
        = some (ty, pid, name, whre) →
      ∃ st' : DState,
        handle_local_reply sp st line fd
          = some (st', [Out.write fd ("SET_DATA_SOCKET ".toList
              ++ backendDataPath sp fd ++ ['\n'])])
        ∧ (∃ r', st'.fdList.get? i = some r'
            ∧ r'.id = name ++ ['@'] ++ whre)
        ∧ st'.default_backend = st.default_backend)
    ∧ ((r.parser.feed line).state = PState.DONE →
      (r.parser.feed line).success = true →
      (r.parser.feed line).command = "SET_DATA_SOCKET".toList →
      ∃ (st' : DState) (outs : List Out),
        handle_local_reply sp st line fd = some (st', outs)
        ∧ st'.default_backend = fd
        ∧ Out.unlinkP (backendDataPath sp fd) ∈ outs
        ∧ ∃ r', st'.fdList.get? i = some r' ∧ r'.connected_to = -1) := by
  have hfeedfd : ∀ q : FdItem,
      ((fun (r : FdItem) => { r with parser := r.parser.feed line }) q).fd
        = q.fd :=
    fun _ => rfl
  have hget1 :
      (upd st.fdList i (fun r => { r with parser := r.parser.feed line })).get? i
        = some { r with parser := r.parser.feed line } :=
    upd_get_same _ hr
  have hfind1 :
      findFd (upd st.fdList i
          (fun r => { r with parser := r.parser.feed line })) fd = some i := by
    rw [findFd_upd _ _ _ hfeedfd]
    exact hi
  constructor
  · intro ty pid name whre hst hsu hcmd hscan
    unfold handle_local_reply
    rw [hi]
    simp only [hget1, Option.getD_some]
    have hcompl : ({ r with parser := r.parser.feed line } : FdItem).parser.is_completed = true := by
      simp [ReplyParser.is_completed, hst]
    have hres : ({ r with parser := r.parser.feed line } : FdItem).parser.get_result = PResult.OK := by
      simp only [ReplyParser.get_result]
      rw [show (r.parser.feed line).state = PState.DONE from hst, hsu]
      rfl
    rw [hcompl]
    simp only [if_pos rfl, hres, if_pos rfl]
    rw [show ({ r with parser := r.parser.feed line } : FdItem).parser.command
          = "GET_BACKEND_INFO".toList from hcmd]
    simp only [if_pos rfl]
    unfold handle_get_backend_info_reply
    rw [hfind1]
    simp only [hget1, Option.getD_some]
    rw [show ({ r with parser := r.parser.feed line } : FdItem).parser.lines
          = (r.parser.feed line).lines from rfl, hscan]
    simp only
    refine ⟨_, rfl, ?_, rfl⟩
    refine ⟨_, upd_get_same _ (upd_get_same _ hget1), rfl⟩
  · intro hst hsu hcmd
    unfold handle_local_reply
    rw [hi]
    simp only [hget1, Option.getD_some]
    have hcompl : ({ r with parser := r.parser.feed line } : FdItem).parser.is_completed = true := by
      simp [ReplyParser.is_completed, hst]
    have hres : ({ r with parser := r.parser.feed line } : FdItem).parser.get_result = PResult.OK := by
      simp only [ReplyParser.get_result]
      rw [show (r.parser.feed line).state = PState.DONE from hst, hsu]
      rfl
    rw [hcompl]
    simp only [if_pos rfl, hres, if_pos rfl]
    rw [show ({ r with parser := r.parser.feed line } : FdItem).parser.command
          = "SET_DATA_SOCKET".toList from hcmd]
    have hne : ("SET_DATA_SOCKET".toList : Str) ≠ "GET_BACKEND_INFO".toList := by
      decide
    rw [if_neg hne]
    simp only [if_pos rfl]
    unfold handle_data_socket_reply
    rw [hfind1]
    simp only [hget1, Option.getD_some]
    rw [show ({ r with parser := r.parser.feed line } : FdItem).parser.success
          = true from hsu]
    simp only [if_pos rfl]
    refine ⟨_, _, rfl, rfl, by simp, ?_⟩
    obtain ⟨r2, hr2, hc2, _, _, hp2, _⟩ :=
      disconnect_clears_me
        (upd st.fdList i (fun r => { r with parser := r.parser.feed line }))
        fd i { r with parser := r.parser.feed line } hfind1 hget1
    exact ⟨_, upd_get_same _ hr2, hc2⟩

/-- Witness for `c6_handshake_postconditions`: both handshake steps run
on concrete registries, with the reply's final `END` line arriving. -/
theorem c6_handshake_postconditions_witness :
    (∃ st' : DState,
      handle_local_reply "/run/lirc/lircd".toList (c6State c6InfoParser)
          "END\n".toList 5
        = some (st', [Out.write 5 ("SET_DATA_SOCKET ".toList
            ++ backendDataPath "/run/lirc/lircd".toList 5 ++ ['\n'])])
      ∧ (∃ r', st'.fdList.get? 4 = some r'
          ∧ r'.id = "acme".toList ++ ['@'] ++ "/dev/ir0".toList)
      ∧ st'.default_backend = (c6State c6InfoParser).default_backend)
    ∧ (∃ (st' : DState) (outs : List Out),
      handle_local_reply "/run/lirc/lircd".toList (c6State c6DataParser)
          "END\n".toList 5
        = some (st', outs)
      ∧ st'.default_backend = 5
      ∧ Out.unlinkP (backendDataPath "/run/lirc/lircd".toList 5) ∈ outs
      ∧ ∃ r', st'.fdList.get? 4 = some r' ∧ r'.connected_to = -1) :=
  ⟨(c6_handshake_postconditions "/run/lirc/lircd".toList
      (c6State c6InfoParser) 5 4 "END\n".toList (c6Rec c6InfoParser)
      (by decide) (by decide)).1
      "std".toList 4711 "acme".toList "/dev/ir0".toList
      (by decide) (by decide) (by decide) (by decide),
   (c6_handshake_postconditions "/run/lirc/lircd".toList
      (c6State c6DataParser) 5 4 "END\n".toList (c6Rec c6DataParser)
      (by decide) (by decide)).2
      (by decide) (by decide) (by decide)⟩

/-- Witness for `c10_amended_split_once_characterization`, applied at
concrete inputs for each conjunct. -/
theorem c10_amended_split_once_characterization_witness :
    (split_once "SEND_ONCE r KEY_1\n".toList).length ≤ 2
    ∧ (split_once " \t\n".toList = []
        ↔ ∀ c ∈ " \t\n".toList, isTokDelim c = true)
    ∧ split_once "SEND_ONCE r KEY_1\n".toList =
        (if specRemainder "SEND_ONCE r KEY_1\n".toList = []
         then [specFirstTok "SEND_ONCE r KEY_1\n".toList]
         else [specFirstTok "SEND_ONCE r KEY_1\n".toList,
               (specRemainder "SEND_ONCE r KEY_1\n".toList).takeWhile
                 (fun c => ¬ (c = '\n'))])
    ∧ (send_cmd stBClient 10 "SEND_ONCE r\n".toList "r\n".toList).isOob
        = false :=
  ⟨c10_amended_split_once_characterization.1 _,
   c10_amended_split_once_characterization.2.1 _,
   c10_amended_split_once_characterization.2.2.1 _ (by decide),
   (c10_amended_split_once_characterization.2.2.2 stBClient 10
     "SEND_ONCE r\n".toList "r\n".toList (by decide)).1⟩

/-! ## Helper lemmas on clean lines and the reply parser -/

lemma cleanLine_ne_nil {s : Str} (h : cleanLine s = true) : s ≠ [] := by
  intro hs
  subst hs
  simp [cleanLine] at h

lemma cleanLine_no_nl {s : Str} (h : cleanLine s = true) : '\n' ∉ s := by
  simp only [cleanLine, Bool.and_eq_true, Bool.not_eq_true'] at h
  have := h.1.2
  simp at this
  exact this

/-- The last character and its non-whitespace-ness of a clean line. -/
lemma cleanLine_last {s : Str} (h : cleanLine s = true) :
    ∃ c, s.getLast? = some c ∧ isWS c = false := by
  have hne : s ≠ [] := cleanLine_ne_nil h
  simp only [cleanLine, Bool.and_eq_true] at h
  obtain ⟨-, hlast⟩ := h
  cases hl : s.getLast? with
  | none => exact absurd (List.getLast?_eq_none_iff.mp hl) hne
  | some c =>
    rw [hl] at hlast
    exact ⟨c, rfl, by simpa using hlast⟩

lemma stripInput_clean {s : Str} (h : cleanLine s = true) : stripInput s = s := by
  have hne : s ≠ [] := cleanLine_ne_nil h
  obtain ⟨c, hl, hlast⟩ := cleanLine_last h
  have hall : ¬ s.all isWS = true := by
    intro hTot
    have := List.all_eq_true.mp hTot c (List.mem_of_mem_getLast? hl)
    rw [this] at hlast
    cases hlast
  unfold stripInput
  rw [if_neg hall]
  cases hrev : s.reverse with
  | nil => exact absurd (List.reverse_eq_nil_iff.mp hrev) hne
  | cons c' t =>
    have hc' : c' = c := by
      have := List.head?_reverse s
      rw [hrev, hl] at this
      simpa using this
    subst hc'
    have h1 : List.dropWhile isWS (c' :: t) = c' :: t := by
      rw [List.dropWhile_cons, if_neg (by simp [hlast])]
    rw [h1, ← hrev, List.reverse_reverse]

/-- Stripping a clean line with its newline terminator yields the bare
line. -/
lemma stripInput_append_nl {s : Str} (h : cleanLine s = true) :
    stripInput (s ++ ['\n']) = s := by
  have hne : s ≠ [] := cleanLine_ne_nil h
  obtain ⟨c, hl, hlast⟩ := cleanLine_last h
  have hcmem : c ∈ s := List.mem_of_mem_getLast? hl
  have hall : ¬ (s ++ ['\n']).all isWS = true := by
    intro hTot
    have := List.all_eq_true.mp hTot c (List.mem_append_left _ hcmem)
    rw [this] at hlast
    cases hlast
  unfold stripInput
  rw [if_neg hall, List.reverse_append, List.reverse_singleton,
    List.singleton_append, List.dropWhile_cons, if_pos (by decide)]
  cases hrev : s.reverse with
  | nil => exact absurd (List.reverse_eq_nil_iff.mp hrev) hne
  | cons c' t =>
    have hc' : c' = c := by
      have := List.head?_reverse s
      rw [hrev, hl] at this
      simpa using this
    subst hc'
    have h1 : List.dropWhile isWS (c' :: t) = c' :: t := by
      rw [List.dropWhile_cons, if_neg (by simp [hlast])]
    rw [h1, ← hrev, List.reverse_reverse]

/-- Feeding a `BEGIN` line in the initial state. -/
lemma feed_begin (p : ReplyParser) (h : p.state = .BEGINS) :
    p.feed "BEGIN\n".toList
      = { p with state := .COMMAND, last_line := "BEGIN".toList } := by
  unfold ReplyParser.feed
  have hs : stripInput "BEGIN\n".toList = "BEGIN".toList := by decide
  rw [hs]
  simp only [h]
  simp

/-- Feeding the command line. -/
lemma feed_command (p : ReplyParser) (m : Str) (h : p.state = .COMMAND)
    (hm : cleanLine m = true) :
    p.feed (m ++ ['\n'])
      = { p with state := .RESULT, command := m, last_line := m } := by
  unfold ReplyParser.feed
  rw [stripInput_append_nl hm]
  simp only [h]
  simp [cleanLine_ne_nil hm]

/-- Feeding the SUCCESS result line. -/
lemma feed_success (p : ReplyParser) (h : p.state = .RESULT) :
    p.feed "SUCCESS\n".toList
      = { p with state := .DATA, success := true,
                 last_line := "SUCCESS".toList } := by
  unfold ReplyParser.feed
  have hs : stripInput "SUCCESS\n".toList = "SUCCESS".toList := by decide
  rw [hs]
  simp only [h]
  simp

/-- Feeding the ERROR result line. -/
lemma feed_error (p : ReplyParser) (h : p.state = .RESULT) :
    p.feed "ERROR\n".toList
      = { p with state := .DATA, success := false,
                 last_line := "ERROR".toList } := by
  unfold ReplyParser.feed
  have hs : stripInput "ERROR\n".toList = "ERROR".toList := by decide
  rw [hs]
  simp only [h]
  simp

/-- Feeding the DATA marker line. -/
lemma feed_data (p : ReplyParser) (h : p.state = .DATA) :
    p.feed "DATA\n".toList
      = { p with state := .LINE_COUNT, last_line := "DATA".toList } := by
  unfold ReplyParser.feed
  have hs : stripInput "DATA\n".toList = "DATA".toList := by decide
  rw [hs]
  simp only [h]
  simp

/-- Feeding an END line straight from the DATA state (payload-free
reply). -/
lemma feed_data_end (p : ReplyParser) (h : p.state = .DATA) :
    p.feed "END\n".toList
      = { p with state := .DONE, last_line := "END".toList } := by
  unfold ReplyParser.feed
  have hs : stripInput "END\n".toList = "END".toList := by decide
  rw [hs]
  simp only [h]
  simp

/-- Feeding the final END line from the END state. -/
lemma feed_end (p : ReplyParser) (h : p.state = .ENDS) :
    p.feed "END\n".toList
      = { p with state := .DONE, last_line := "END".toList } := by
  unfold ReplyParser.feed
  have hs : stripInput "END\n".toList = "END".toList := by decide
  rw [hs]
  simp only [h]
  simp

/-- Clean-line and parse facts about the first hundred counters. -/
lemma natStr_props : ∀ n : Nat, n < 100 →
    cleanLine (natStr n) = true ∧ scan2d (natStr n) = some (n : Int) := by
  decide

/-- Feeding the payload line count. -/
lemma feed_line_count (p : ReplyParser) (n : Nat) (h : p.state = .LINE_COUNT)
    (hn : n < 100) :
    p.feed (natStr n ++ ['\n'])
      = { p with state := .LINES, line_count := (n : Int),
                 last_line := natStr n } := by
  unfold ReplyParser.feed
  rw [stripInput_append_nl (natStr_props n hn).1]
  simp only [h, (natStr_props n hn).2]

/-- Feeding one payload line. -/
lemma feed_payload_line (p : ReplyParser) (l : Str) (h : p.state = .LINES)
    (hl : cleanLine l = true) :
    p.feed (l ++ ['\n'])
      = { p with line_count := p.line_count - 1,
                 lines := p.lines ++ l ++ ['\n'],
                 last_line := l,
                 state := if p.line_count - 1 ≤ 0 then .ENDS
                          else .LINES } := by
  unfold ReplyParser.feed
  rw [stripInput_append_nl hl]
  simp only [h]
  simp [cleanLine_ne_nil hl]

/-- One splitting step of `toLines`. -/
lemma toLinesAux_line (a : Str) (ha : '\n' ∉ a) (rest : Str) :
    ∀ acc, toLinesAux (a ++ '\n' :: rest) acc
      = (acc.reverse ++ a ++ ['\n']) :: toLinesAux rest [] := by
  induction a with
  | nil => intro acc; simp [toLinesAux]
  | cons c a' ih =>
    intro acc
    have hc : ¬ (c = '\n') := fun hc => ha (by simp [hc])
    simp only [List.cons_append, toLinesAux, if_neg hc, List.append_eq]
    rw [ih (fun hmem => ha (List.mem_cons_of_mem _ hmem)) (c :: acc)]
    simp

/-- `toLines` splits off a complete line. -/
lemma toLines_line (a : Str) (ha : '\n' ∉ a) (rest : Str) :
    toLines (a ++ ['\n'] ++ rest) = (a ++ ['\n']) :: toLines rest := by
  unfold toLines
  have := toLinesAux_line a ha rest []
  simpa using this

/-- `toLines` across a joined payload. -/
lemma toLines_joinNl (ls : List Str) (h : ∀ l ∈ ls, '\n' ∉ l) (rest : Str) :
    toLines (joinNl ls ++ rest)
      = ls.map (fun l => l ++ ['\n']) ++ toLines rest := by
  induction ls with
  | nil => simp [joinNl]
  | cons l t ih =>
    have h1 : joinNl (l :: t) ++ rest = l ++ ['\n'] ++ (joinNl t ++ rest) := by
      simp [joinNl]
    rw [h1, toLines_line l (h l (by simp)) _,
      ih (fun x hx => h x (List.mem_cons_of_mem _ hx))]
    simp

/-- Newline count of a joined payload of newline-free lines. -/
lemma count_nl_joinNl (ls : List Str) (h : ∀ l ∈ ls, '\n' ∉ l) :
    count_newlines (joinNl ls) = ls.length := by
  induction ls with
  | nil => simp [joinNl, count_newlines]
  | cons l t ih =>
    have h1 : joinNl (l :: t) = l ++ ['\n'] ++ joinNl t := by simp [joinNl]
    rw [h1]
    unfold count_newlines at *
    rw [List.count_append, List.count_append,
      List.count_eq_zero_of_not_mem (h l (by simp)),
      ih (fun x hx => h x (List.mem_cons_of_mem _ hx))]
    simp
    omega

/-- Driving the parser through an entire payload: each line decrements
the counter and is appended; the last one moves to the END state. -/
lemma feed_lines (ls : List Str) :
    ∀ p : ReplyParser, p.state = .LINES →
      p.line_count = (ls.length : Int) → 1 ≤ ls.length →
      (∀ l ∈ ls, cleanLine l = true) →
      p.feedAll (ls.map (fun l => l ++ ['\n']))
        = { p with state := .ENDS, line_count := 0,
                   lines := p.lines ++ joinNl ls,
                   last_line := ls.getLast?.getD p.last_line } := by
  induction ls with
  | nil => intro p _ _ hlen _; simp at hlen
  | cons l t ih =>
    intro p hst hcnt hlen hclean
    have hcl := hclean l (by simp)
    have hfeed := feed_payload_line p l hst hcl
    by_cases ht : t = []
    · subst ht
      simp only [List.map_cons, List.map_nil, ReplyParser.feedAll,
        List.foldl_cons, List.foldl_nil]
      rw [show p.feed (l ++ ['\n'])
            = { p with line_count := p.line_count - 1,
                       lines := p.lines ++ l ++ ['\n'],
                       last_line := l,
                       state := if p.line_count - 1 ≤ 0 then .ENDS
                                else .LINES } from hfeed]
      have hc1 : p.line_count - 1 ≤ 0 := by
        rw [hcnt]; simp
      rw [if_pos hc1]
      have hc0 : p.line_count - 1 = 0 := by rw [hcnt]; simp
      simp [hc0, joinNl]
    · have hlt : 1 ≤ t.length := by
        cases t with
        | nil => exact absurd rfl ht
        | cons a b => simp
      simp only [List.map_cons, ReplyParser.feedAll, List.foldl_cons]
      rw [show p.feed (l ++ ['\n'])
            = { p with line_count := p.line_count - 1,
                       lines := p.lines ++ l ++ ['\n'],
                       last_line := l,
                       state := if p.line_count - 1 ≤ 0 then .ENDS
                                else .LINES } from hfeed]
      have hcn : ¬ (p.line_count - 1 ≤ 0) := by
        rw [hcnt]
        simp only [List.length_cons]
        push_cast
        omega
      rw [if_neg hcn]
      have := ih { p with line_count := p.line_count - 1,
                          lines := p.lines ++ l ++ ['\n'],
                          last_line := l, state := .LINES }
        rfl
        (by simp only [hcnt, List.length_cons]; push_cast; ring)
        hlt
        (fun x hx => hclean x (List.mem_cons_of_mem _ hx))
      rw [show (List.foldl ReplyParser.feed
            { p with line_count := p.line_count - 1,
                     lines := p.lines ++ l ++ ['\n'],
                     last_line := l, state := .LINES }
            (t.map (fun l => l ++ ['\n'])))
          = _ from this]
      have hlast : t.getLast?.getD l = (l :: t).getLast?.getD p.last_line := by
        cases hgt : t.getLast? with
        | none => exact absurd (List.getLast?_eq_none_iff.mp hgt) ht
        | some x =>
          rw [List.getLast?_cons, hgt]
          rfl
      simp [hlast, joinNl]

/-- Running a fresh parser over a complete SUCCESS reply packet with a
payload of `ls` (1 to 99 clean lines). -/
lemma feed_packet_success (m : Str) (ls : List Str)
    (hm : cleanLine m = true) (hls : ∀ l ∈ ls, cleanLine l = true)
    (h1 : 1 ≤ ls.length) (h99 : ls.length ≤ 99) :
    ReplyParser.fresh.feedAll
        (("BEGIN".toList ++ ['\n']) :: (m ++ ['\n'])
          :: ("SUCCESS".toList ++ ['\n']) :: ("DATA".toList ++ ['\n'])
          :: (natStr ls.length ++ ['\n'])
          :: (ls.map (fun l => l ++ ['\n'])
              ++ [("END".toList ++ ['\n'])]))
      = { state := .DONE, command := m, lines := joinNl ls,
          last_line := "END".toList, line_count := 0,
          success := true } := by
  have hb : ("BEGIN".toList ++ ['\n'] : Str) = "BEGIN\n".toList := by decide
  have hsu : ("SUCCESS".toList ++ ['\n'] : Str) = "SUCCESS\n".toList := by
    decide
  have hd : ("DATA".toList ++ ['\n'] : Str) = "DATA\n".toList := by decide
  have he : ("END".toList ++ ['\n'] : Str) = "END\n".toList := by decide
  rw [hb, hsu, hd, he]
  have e1 : ReplyParser.fresh.feed "BEGIN\n".toList
      = { state := .COMMAND, command := [], lines := [],
          last_line := "BEGIN".toList, line_count := 0,
          success := false } := by
    rw [feed_begin _ rfl]
    rfl
  have e2 : ({ state := .COMMAND, command := [], lines := [],
               last_line := "BEGIN".toList, line_count := 0,
               success := false } : ReplyParser).feed (m ++ ['\n'])
      = { state := .RESULT, command := m, lines := [],
          last_line := m, line_count := 0, success := false } := by
    rw [feed_command _ m rfl hm]
  have e3 : ({ state := .RESULT, command := m, lines := [],
               last_line := m, line_count := 0,
               success := false } : ReplyParser).feed "SUCCESS\n".toList
      = { state := .DATA, command := m, lines := [],
          last_line := "SUCCESS".toList, line_count := 0,
          success := true } := by
    rw [feed_success _ rfl]
  have e4 : ({ state := .DATA, command := m, lines := [],
               last_line := "SUCCESS".toList, line_count := 0,
               success := true } : ReplyParser).feed "DATA\n".toList
      = { state := .LINE_COUNT, command := m, lines := [],
          last_line := "DATA".toList, line_count := 0,
          success := true } := by
    rw [feed_data _ rfl]
  have e5 : ({ state := .LINE_COUNT, command := m, lines := [],
               last_line := "DATA".toList, line_count := 0,
               success := true } : ReplyParser).feed
                 (natStr ls.length ++ ['\n'])
      = { state := .LINES, command := m, lines := [],
          last_line := natStr ls.length,
          line_count := (ls.length : Int), success := true } := by
    rw [feed_line_count _ ls.length rfl (by omega)]
  have e6 : ({ state := .LINES, command := m, lines := [],
               last_line := natStr ls.length,
               line_count := (ls.length : Int),
               success := true } : ReplyParser).feedAll
                 (ls.map (fun l => l ++ ['\n']))
      = { state := .ENDS, command := m, lines := joinNl ls,
          last_line := ls.getLast?.getD (natStr ls.length),
          line_count := 0, success := true } := by
    rw [feed_lines ls _ rfl rfl h1 hls]
    rfl
  have e7 : ({ state := .ENDS, command := m, lines := joinNl ls,
               last_line := ls.getLast?.getD (natStr ls.length),
               line_count := 0,
               success := true } : ReplyParser).feed "END\n".toList
      = { state := .DONE, command := m, lines := joinNl ls,
          last_line := "END".toList, line_count := 0,
          success := true } := by
    rw [feed_end _ rfl]
  calc ReplyParser.fresh.feedAll
        ("BEGIN\n".toList :: (m ++ ['\n']) :: "SUCCESS\n".toList
          :: "DATA\n".toList :: (natStr ls.length ++ ['\n'])
          :: (ls.map (fun l => l ++ ['\n']) ++ ["END\n".toList]))
      = (((((ReplyParser.fresh.feed "BEGIN\n".toList).feed
            (m ++ ['\n'])).feed "SUCCESS\n".toList).feed
            "DATA\n".toList).feed (natStr ls.length ++ ['\n'])).feedAll
            (ls.map (fun l => l ++ ['\n']) ++ ["END\n".toList]) := rfl
    _ = ({ state := .LINES, command := m, lines := [],
           last_line := natStr ls.length, line_count := (ls.length : Int),
           success := true } : ReplyParser).feedAll
             (ls.map (fun l => l ++ ['\n']) ++ ["END\n".toList]) := by
        rw [e1, e2, e3, e4, e5]
    _ = (({ state := .LINES, command := m, lines := [],
            last_line := natStr ls.length, line_count := (ls.length : Int),
            success := true } : ReplyParser).feedAll
              (ls.map (fun l => l ++ ['\n']))).feedAll ["END\n".toList] := by
        simp [ReplyParser.feedAll]
    _ = { state := .DONE, command := m, lines := joinNl ls,
          last_line := "END".toList, line_count := 0,
          success := true } := by
        rw [e6]
        exact e7

/-- Running a fresh parser over a complete ERROR reply packet. -/
lemma feed_packet_error (m : Str) (ls : List Str)
    (hm : cleanLine m = true) (hls : ∀ l ∈ ls, cleanLine l = true)
    (h1 : 1 ≤ ls.length) (h99 : ls.length ≤ 99) :
    ReplyParser.fresh.feedAll
        (("BEGIN".toList ++ ['\n']) :: (m ++ ['\n'])
          :: ("ERROR".toList ++ ['\n']) :: ("DATA".toList ++ ['\n'])
          :: (natStr ls.length ++ ['\n'])
          :: (ls.map (fun l => l ++ ['\n'])
              ++ [("END".toList ++ ['\n'])]))
      = { state := .DONE, command := m, lines := joinNl ls,
          last_line := "END".toList, line_count := 0,
          success := false } := by
  have hb : ("BEGIN".toList ++ ['\n'] : Str) = "BEGIN\n".toList := by decide
  have hsu : ("ERROR".toList ++ ['\n'] : Str) = "ERROR\n".toList := by decide
  have hd : ("DATA".toList ++ ['\n'] : Str) = "DATA\n".toList := by decide
  have he : ("END".toList ++ ['\n'] : Str) = "END\n".toList := by decide
  rw [hb, hsu, hd, he]
  have e1 : ReplyParser.fresh.feed "BEGIN\n".toList
      = { state := .COMMAND, command := [], lines := [],
          last_line := "BEGIN".toList, line_count := 0,
          success := false } := by
    rw [feed_begin _ rfl]
    rfl
  have e2 : ({ state := .COMMAND, command := [], lines := [],
               last_line := "BEGIN".toList, line_count := 0,
               success := false } : ReplyParser).feed (m ++ ['\n'])
      = { state := .RESULT, command := m, lines := [],
          last_line := m, line_count := 0, success := false } := by
    rw [feed_command _ m rfl hm]
  have e3 : ({ state := .RESULT, command := m, lines := [],
               last_line := m, line_count := 0,
               success := false } : ReplyParser).feed "ERROR\n".toList
      = { state := .DATA, command := m, lines := [],
          last_line := "ERROR".toList, line_count := 0,
          success := false } := by
    rw [feed_error _ rfl]
  have e4 : ({ state := .DATA, command := m, lines := [],
               last_line := "ERROR".toList, line_count := 0,
               success := false } : ReplyParser).feed "DATA\n".toList
      = { state := .LINE_COUNT, command := m, lines := [],
          last_line := "DATA".toList, line_count := 0,
          success := false } := by
    rw [feed_data _ rfl]
  have e5 : ({ state := .LINE_COUNT, command := m, lines := [],
               last_line := "DATA".toList, line_count := 0,
               success := false } : ReplyParser).feed
                 (natStr ls.length ++ ['\n'])
      = { state := .LINES, command := m, lines := [],
          last_line := natStr ls.length,
          line_count := (ls.length : Int), success := false } := by
    rw [feed_line_count _ ls.length rfl (by omega)]
  have e6 : ({ state := .LINES, command := m, lines := [],
               last_line := natStr ls.length,
               line_count := (ls.length : Int),
               success := false } : ReplyParser).feedAll
                 (ls.map (fun l => l ++ ['\n']))
      = { state := .ENDS, command := m, lines := joinNl ls,
          last_line := ls.getLast?.getD (natStr ls.length),
          line_count := 0, success := false } := by
    rw [feed_lines ls _ rfl rfl h1 hls]
    rfl
  have e7 : ({ state := .ENDS, command := m, lines := joinNl ls,
               last_line := ls.getLast?.getD (natStr ls.length),
               line_count := 0,
               success := false } : ReplyParser).feed "END\n".toList
      = { state := .DONE, command := m, lines := joinNl ls,
          last_line := "END".toList, line_count := 0,
          success := false } := by
    rw [feed_end _ rfl]
  calc ReplyParser.fresh.feedAll
        ("BEGIN\n".toList :: (m ++ ['\n']) :: "ERROR\n".toList
          :: "DATA\n".toList :: (natStr ls.length ++ ['\n'])
          :: (ls.map (fun l => l ++ ['\n']) ++ ["END\n".toList]))
      = (((((ReplyParser.fresh.feed "BEGIN\n".toList).feed
            (m ++ ['\n'])).feed "ERROR\n".toList).feed
            "DATA\n".toList).feed (natStr ls.length ++ ['\n'])).feedAll
            (ls.map (fun l => l ++ ['\n']) ++ ["END\n".toList]) := rfl
    _ = ({ state := .LINES, command := m, lines := [],
           last_line := natStr ls.length, line_count := (ls.length : Int),
           success := false } : ReplyParser).feedAll
             (ls.map (fun l => l ++ ['\n']) ++ ["END\n".toList]) := by
        rw [e1, e2, e3, e4, e5]
    _ = (({ state := .LINES, command := m, lines := [],
            last_line := natStr ls.length, line_count := (ls.length : Int),
            success := false } : ReplyParser).feedAll
              (ls.map (fun l => l ++ ['\n']))).feedAll ["END\n".toList] := by
        simp [ReplyParser.feedAll]
    _ = { state := .DONE, command := m, lines := joinNl ls,
          last_line := "END".toList, line_count := 0,
          success := false } := by
        rw [e6]
        exact e7

/-- Running a fresh parser over a payload-free SUCCESS reply. -/
lemma feed_packet_nodata (m : Str) (hm : cleanLine m = true) :
    ReplyParser.fresh.feedAll
        [("BEGIN".toList ++ ['\n']), (m ++ ['\n']),
         ("SUCCESS".toList ++ ['\n']), ("END".toList ++ ['\n'])]
      = { state := .DONE, command := m, lines := [],
          last_line := "END".toList, line_count := 0,
          success := true } := by
  have hb : ("BEGIN".toList ++ ['\n'] : Str) = "BEGIN\n".toList := by decide
  have hsu : ("SUCCESS".toList ++ ['\n'] : Str) = "SUCCESS\n".toList := by
    decide
  have he : ("END".toList ++ ['\n'] : Str) = "END\n".toList := by decide
  rw [hb, hsu, he]
  show (((ReplyParser.fresh.feed "BEGIN\n".toList).feed
      (m ++ ['\n'])).feed "SUCCESS\n".toList).feed "END\n".toList = _
  rw [feed_begin _ rfl, feed_command _ m rfl hm, feed_success _ rfl,
    feed_data_end _ rfl]
  rfl

/-! ## C5 -/

/-- C5: the round trip fails at a zero-line payload.  Encoding
`send_success(fd, "CMD\n", "")` yields a `DATA`/`0` packet whose `END`
line the parser consumes as a payload line (the `LINES` state
decrements before checking), so a fresh ReplyParser ends in the END
state, not DONE, and never completes. -/
theorem c5_zero_payload_round_trip_fails :
    toLines (sendSuccessDataStr "CMD\n".toList [])
      = ["BEGIN\n".toList, "CMD\n".toList, "SUCCESS\n".toList,
         "DATA\n".toList, "0\n".toList, "END\n".toList]
    ∧ (ReplyParser.fresh.feedAll
        (toLines (sendSuccessDataStr "CMD\n".toList []))).state
        ≠ PState.DONE
    ∧ (ReplyParser.fresh.feedAll
        (toLines (sendSuccessDataStr "CMD\n".toList []))).is_completed
        = false := by
  refine ⟨by decide, by decide, by decide⟩

/-- C5 (amended): the ReplyParser round trip holds for the three reply
shapes when the payload line count is between 1 and 99 and every line
is in canonical form: for a clean single-line message `m`,
(1) `send_success(fd, m+"\n")` parses to DONE with command `m`, no
data, and success; (2) `send_success(fd, m+"\n", data)` with a payload
of 1–99 clean newline-terminated lines (and `m` at most 126 bytes)
parses to DONE with command `m`, the identical payload, and success;
(3) `send_error(fd, m+"\n", …)` with a clean single-line body `b` (and
`m` at most 256 bytes) parses to DONE with command `m`, the single
data line `b`, and failure.  At zero payload lines (the
counterexample) and at counts of three or more decimal digits (the
`%2d` line-count scan and the 4-byte count buffer) the round trip does
not hold. -/
theorem c5_amended_round_trip :
    (∀ m : Str, cleanLine m = true →
      ReplyParser.fresh.feedAll (toLines (sendSuccessStr (m ++ ['\n'])))
        = { state := .DONE, command := m, lines := [],
            last_line := "END".toList, line_count := 0, success := true })
    ∧ (∀ (m : Str) (ls : List Str), cleanLine m = true → m.length ≤ 126 →
        (∀ l ∈ ls, cleanLine l = true) → 1 ≤ ls.length → ls.length ≤ 99 →
        ReplyParser.fresh.feedAll
            (toLines (sendSuccessDataStr (m ++ ['\n']) (joinNl ls)))
          = { state := .DONE, command := m, lines := joinNl ls,
              last_line := "END".toList, line_count := 0,
              success := true })
    ∧ (∀ m b : Str, cleanLine m = true → m.length ≤ 256 →
        cleanLine b = true →
        ReplyParser.fresh.feedAll (toLines (sendErrorStr (m ++ ['\n']) b))
          = { state := .DONE, command := m, lines := b ++ ['\n'],
              last_line := "END".toList, line_count := 0,
              success := false }) := by
  refine ⟨?_, ?_, ?_⟩
  · intro m hm
    have henc : sendSuccessStr (m ++ ['\n'])
        = "BEGIN".toList ++ ['\n']
          ++ (m ++ ['\n']
            ++ ("SUCCESS".toList ++ ['\n']
              ++ ("END".toList ++ ['\n'] ++ ([] : Str)))) := by
      unfold sendSuccessStr
      simp
    rw [henc, toLines_line _ (by decide), toLines_line _ (cleanLine_no_nl hm),
      toLines_line _ (by decide), toLines_line _ (by decide),
      show toLines ([] : Str) = [] from rfl]
    exact feed_packet_nodata m hm
  · intro m ls hm hlen126 hls h1 h99
    have hnlm := cleanLine_no_nl hm
    have hnls : ∀ l ∈ ls, '\n' ∉ l := fun l hl => cleanLine_no_nl (hls l hl)
    have hnlc : '\n' ∉ natStr ls.length :=
      cleanLine_no_nl (natStr_props ls.length (by omega)).1
    have henc : sendSuccessDataStr (m ++ ['\n']) (joinNl ls)
        = "BEGIN".toList ++ ['\n']
          ++ (m ++ ['\n']
            ++ ("SUCCESS".toList ++ ['\n']
              ++ ("DATA".toList ++ ['\n']
                ++ (natStr ls.length ++ ['\n']
                  ++ (joinNl ls
                    ++ ("END".toList ++ ['\n'] ++ ([] : Str))))))) := by
      simp only [sendSuccessDataStr]
      rw [List.take_all_of_le (by simp; omega), List.getLast?_concat,
        if_pos rfl, List.dropLast_concat, count_nl_joinNl ls hnls]
      simp
    rw [henc, toLines_line _ (by decide), toLines_line _ hnlm,
      toLines_line _ (by decide), toLines_line _ (by decide),
      toLines_line _ hnlc, toLines_joinNl ls hnls,
      toLines_line _ (by decide), show toLines ([] : Str) = [] from rfl]
    exact feed_packet_success m ls hm hls h1 h99
  · intro m b hm hlen256 hb
    have hnlm := cleanLine_no_nl hm
    have hnlb := cleanLine_no_nl hb
    have hstrip1 : strip_trailing_nl ((m ++ ['\n']).take (PACKET_SIZE + 1))
        = m := by
      rw [List.take_all_of_le (by simp [PACKET_SIZE]; omega)]
      have hd : (m ++ ['\n']).reverse.dropWhile (· ≠ '\n')
          = '\n' :: m.reverse := by
        rw [List.reverse_append, List.reverse_singleton,
          List.singleton_append, List.dropWhile_cons, if_neg (by simp)]
      simp only [strip_trailing_nl, hd]
      exact List.reverse_reverse m
    have hstrip2 : strip_trailing_nl b = b := by
      have hd : b.reverse.dropWhile (· ≠ '\n') = [] := by
        rw [List.dropWhile_eq_nil_iff]
        intro x hx
        simp only [ne_eq, decide_not]
        have : x ∈ b := List.mem_reverse.mp hx
        simp only [Bool.not_eq_true', decide_eq_false_iff_not]
        intro hxe
        exact hnlb (hxe ▸ this)
      simp only [strip_trailing_nl, hd]
    have hcount : count_newlines b = 0 :=
      List.count_eq_zero_of_not_mem hnlb
    have henc : sendErrorStr (m ++ ['\n']) b
        = "BEGIN".toList ++ ['\n']
          ++ (m ++ ['\n']
            ++ ("ERROR".toList ++ ['\n']
              ++ ("DATA".toList ++ ['\n']
                ++ (natStr 1 ++ ['\n']
                  ++ (joinNl [b]
                    ++ ("END".toList ++ ['\n'] ++ ([] : Str))))))) := by
      simp only [sendErrorStr]
      rw [hstrip1, hstrip2, hcount]
      have hl3 : (natStr (0 + 1) ++ ['\n']).take 3 = natStr 1 ++ ['\n'] := by
        decide
      rw [hl3]
      simp [joinNl]
    rw [henc, toLines_line _ (by decide), toLines_line _ hnlm,
      toLines_line _ (by decide), toLines_line _ (by decide),
      toLines_line _ (by decide),
      toLines_joinNl [b] (by simpa using hnlb),
      toLines_line _ (by decide), show toLines ([] : Str) = [] from rfl]
    have := feed_packet_error m [b] hm (by simpa using hb) (by simp) (by simp)
    simp only [List.length_cons, List.length_nil] at this
    rw [this]
    simp [joinNl]

/-- Witness for `c5_amended_round_trip`: all three conjuncts applied to
concrete replies. -/
theorem c5_amended_round_trip_witness :
    ReplyParser.fresh.feedAll
        (toLines (sendSuccessStr ("VERSION".toList ++ ['\n'])))
      = { state := .DONE, command := "VERSION".toList, lines := [],
          last_line := "END".toList, line_count := 0, success := true }
    ∧ ReplyParser.fresh.feedAll
        (toLines (sendSuccessDataStr ("LIST r".toList ++ ['\n'])
          (joinNl ["KEY_1".toList, "KEY_2".toList])))
      = { state := .DONE, command := "LIST r".toList,
          lines := joinNl ["KEY_1".toList, "KEY_2".toList],
          last_line := "END".toList, line_count := 0, success := true }
    ∧ ReplyParser.fresh.feedAll
        (toLines (sendErrorStr ("SEND_ONCE".toList ++ ['\n'])
          "TIMEOUT".toList))
      = { state := .DONE, command := "SEND_ONCE".toList,
          lines := "TIMEOUT".toList ++ ['\n'],
          last_line := "END".toList, line_count := 0, success := false } :=
  ⟨c5_amended_round_trip.1 "VERSION".toList (by decide),
   c5_amended_round_trip.2.1 "LIST r".toList
     ["KEY_1".toList, "KEY_2".toList] (by decide) (by decide) (by decide)
     (by decide) (by decide),
   c5_amended_round_trip.2.2 "SEND_ONCE".toList "TIMEOUT".toList
     (by decide) (by decide) (by decide)⟩

/-! ## C3: heartbeat-pass lemmas -/

/-- Unfolding `tickFrom` at zero fuel. -/
lemma tickFrom_zero (l : List FdItem) (s : Nat) : tickFrom l s 0 = (l, []) :=
  rfl

/-- Unfolding `tickFrom` at successor fuel. -/
lemma tickFrom_succ (l : List FdItem) (s fuel : Nat) :
    tickFrom l s (fuel + 1)
      = ((tickFrom (tickStep l s).1 (s + 1) fuel).1,
         (tickStep l s).2 ++ (tickFrom (tickStep l s).1 (s + 1) fuel).2) :=
  rfl

/-- A heartbeat step at a vacant position does nothing. -/
lemma tickStep_none {l : List FdItem} {i : Nat} (hi : l.get? i = none) :
    tickStep l i = (l, []) := by
  unfold tickStep
  rw [hi]

/-- A heartbeat step skips non-stream records and disarmed counters. -/
lemma tickStep_skip {l : List FdItem} {i : Nat} {it : FdItem}
    (hi : l.get? i = some it)
    (h : it.clientish = false ∨ it.ticks ≤ 0) :
    tickStep l i = (l, []) := by
  unfold tickStep
  rw [hi]
  rcases h with h | h
  · simp [h]
  · simp [h]

/-- A heartbeat step decrements an armed counter that stays positive. -/
lemma tickStep_dec {l : List FdItem} {i : Nat} {it : FdItem}
    (hi : l.get? i = some it) (hc : it.clientish = true)
    (ht : 1 < it.ticks) :
    tickStep l i = (upd l i fun r => { r with ticks := r.ticks - 1 }, []) := by
  unfold tickStep
  rw [hi]
  have h0 : ¬ it.ticks ≤ 0 := by omega
  have h1 : it.ticks - 1 > 0 := by omega
  simp [hc, h0, h1]

/-- A heartbeat step at a counter on its last tick: the TIMEOUT error is
emitted, the routing is dissolved and the counter disarmed. -/
lemma tickStep_timeout {l : List FdItem} {i : Nat} {it : FdItem}
    (hi : l.get? i = some it) (hc : it.clientish = true)
    (ht : it.ticks = 1) :
    tickStep l i
      = (upd ((disconnect_fds
            (upd l i fun r => { r with ticks := r.ticks - 1 }) it.fd).2) i
            (fun r => { r with ticks := (-1 : Int) }),
         [Out.write it.fd (sendErrorStr it.expected "TIMEOUT".toList)]) := by
  unfold tickStep
  rw [hi]
  have h0 : ¬ it.ticks ≤ 0 := by omega
  have h1 : ¬ it.ticks - 1 > 0 := by omega
  simp [hc, h0, h1]

/-- Under distinct fds, two registry positions holding the same fd
coincide. -/
lemma fd_inj {l : List FdItem} (hnd : (l.map FdItem.fd).Nodup)
    {i j : Nat} {ri rj : FdItem} (hi : l.get? i = some ri)
    (hj : l.get? j = some rj) (hfd : ri.fd = rj.fd) : i = j := by
  have hi' : (l.map FdItem.fd).get? i = some ri.fd := by
    rw [List.get?_map, hi]; rfl
  have hj' : (l.map FdItem.fd).get? j = some rj.fd := by
    rw [List.get?_map, hj]; rfl
  have hlen : i < (l.map FdItem.fd).length := by
    rw [List.length_map]
    by_contra hge
    rw [List.get?_eq_none.mpr (by omega)] at hi
    cases hi
  exact List.get?_inj hlen hnd (by rw [hi', hj', hfd])

/-- When `findIdx?` fails, the predicate fails everywhere. -/
lemma findIdxQ_none_spec {α : Type} (p : α → Bool) :
    ∀ (l : List α), l.findIdx? p = none → ∀ x ∈ l, p x = false := by
  intro l
  induction l with
  | nil => intro _ x hx; cases hx
  | cons a t ih =>
    intro h x hx
    rw [List.findIdx?_cons] at h
    by_cases hp : p a
    · simp [hp] at h
    · simp only [hp, if_neg, Bool.false_eq_true, if_false] at h
      rw [List.findIdx?_succ, Option.map_eq_none'] at h
      cases hx with
      | head => exact Bool.eq_false_iff.mpr hp
      | tail _ hx => exact ih h x hx

/-- Under distinct fds, `find_fd` of a record's own fd returns its
position. -/
lemma findFd_self {l : List FdItem} (hnd : (l.map FdItem.fd).Nodup)
    {i : Nat} {r : FdItem} (h : l.get? i = some r) :
    findFd l r.fd = some i := by
  cases hf : findFd l r.fd with
  | none =>
    exfalso
    have := findIdxQ_none_spec _ l hf r (List.get?_mem h)
    simp at this
  | some k =>
    obtain ⟨rk, hrk, hp⟩ := findIdxQ_some_spec _ l k hf
    have hfd : rk.fd = r.fd := by simpa using hp
    rw [fd_inj hnd hrk h hfd]

/-- `find_fd` is determined by the fds alone. -/
lemma findFd_eq_of_pointwise :
    ∀ (l l' : List FdItem),
      (∀ j, (l.get? j).map FdItem.fd = (l'.get? j).map FdItem.fd) →
      ∀ x, findFd l x = findFd l' x := by
  intro l
  induction l with
  | nil =>
    intro l' h x
    cases l' with
    | nil => rfl
    | cons a t => have := h 0; simp at this
  | cons a t ih =>
    intro l' h x
    cases l' with
    | nil => have := h 0; simp at this
    | cons a' t' =>
      have h0 : a.fd = a'.fd := by have := h 0; simpa using this
      unfold findFd
      rw [List.findIdx?_cons, List.findIdx?_cons]
      simp only [h0]
      by_cases hp : a'.fd = x
      · simp [hp]
      · simp only [hp, decide_False, if_neg, Bool.false_eq_true, if_false]
        rw [List.findIdx?_succ, List.findIdx?_succ,
          show List.findIdx? (fun r => decide (r.fd = x)) t = findFd t x from
            rfl,
          show List.findIdx? (fun r => decide (r.fd = x)) t' = findFd t' x from
            rfl,
          ih t' (fun j => by have := h (j + 1); simpa using this) x]

/-- `TickEvolved` is reflexive. -/
lemma tickEvolved_refl (l : List FdItem) : TickEvolved l l :=
  ⟨rfl, fun _ r h => ⟨r, h, rfl, rfl, rfl, Or.inl rfl⟩⟩

/-- `TickEvolved` is transitive. -/
lemma tickEvolved_trans {l1 l2 l3 : List FdItem}
    (h12 : TickEvolved l1 l2) (h23 : TickEvolved l2 l3) :
    TickEvolved l1 l3 := by
  refine ⟨h12.1.trans h23.1, fun j r h => ?_⟩
  obtain ⟨r2, h2, hf2, hk2, he2, hc2⟩ := h12.2 j r h
  obtain ⟨r3, h3, hf3, hk3, he3, hc3⟩ := h23.2 j r2 h2
  refine ⟨r3, h3, hf3.trans hf2, hk3.trans hk2, he3.trans he2, ?_⟩
  rcases hc3 with h' | h'
  · rw [h']; exact hc2
  · exact Or.inr h'

/-- An update that keeps fd, kind and expected, and either keeps or
clears `connected_to`, extends a `TickEvolved` evolution. -/
lemma tickEvolved_upd {l l' : List FdItem} (h : TickEvolved l l')
    (i : Nat) (f : FdItem → FdItem)
    (hf : ∀ r, (f r).fd = r.fd ∧ (f r).kind = r.kind
      ∧ (f r).expected = r.expected
      ∧ ((f r).connected_to = r.connected_to ∨ (f r).connected_to = -1)) :
    TickEvolved l (upd l' i f) := by
  refine ⟨h.1.trans (upd_length l' i f).symm, fun j r hj => ?_⟩
  obtain ⟨r', h', hf', hk', he', hc'⟩ := h.2 j r hj
  by_cases hij : i = j
  · subst hij
    refine ⟨f r', upd_get_same f h', ((hf r').1).trans hf',
      ((hf r').2.1).trans hk', ((hf r').2.2.1).trans he', ?_⟩
    rcases (hf r').2.2.2 with hh | hh
    · rw [hh]; exact hc'
    · exact Or.inr hh
  · exact ⟨r', by rw [upd_get_other f hij]; exact h', hf', hk', he', hc'⟩

/-- `disconnect_fds` extends a `TickEvolved` evolution: it only clears
`connected_to` and `ticks` fields. -/
lemma tickEvolved_disconnect {l l' : List FdItem} (h : TickEvolved l l')
    (fd : Int) : TickEvolved l (disconnect_fds l' fd).2 := by
  unfold disconnect_fds
  cases hm : findFd l' fd with
  | none => exact h
  | some m =>
    simp only
    by_cases h0 : ((l'.get? m).getD FdItem.mk0).connected_to = 0
    · rw [if_pos h0]
      exact tickEvolved_upd h m _ (fun r => ⟨rfl, rfl, rfl, Or.inr rfl⟩)
    · rw [if_neg h0]
      by_cases h1 : ((l'.get? m).getD FdItem.mk0).connected_to = -1
      · rw [if_pos h1]
        exact tickEvolved_upd h m _ (fun r => ⟨rfl, rfl, rfl, Or.inl rfl⟩)
      · rw [if_neg h1]
        have h2 := tickEvolved_upd h m
          (fun r => { r with ticks := (-1 : Int) })
          (fun r => ⟨rfl, rfl, rfl, Or.inl rfl⟩)
        have h3 := tickEvolved_upd h2 m
          (fun r => { r with connected_to := (-1 : Int) })
          (fun r => ⟨rfl, rfl, rfl, Or.inr rfl⟩)
        cases ho : findFd (upd l' m fun r => { r with ticks := (-1 : Int) })
            ((l'.get? m).getD FdItem.mk0).connected_to with
        | none => exact h3
        | some o =>
          exact tickEvolved_upd h3 o _ (fun r => ⟨rfl, rfl, rfl, Or.inr rfl⟩)

/-- One heartbeat step is a `TickEvolved` evolution. -/
lemma tickEvolved_tickStep (l : List FdItem) (i : Nat) :
    TickEvolved l (tickStep l i).1 := by
  cases hi : l.get? i with
  | none => rw [tickStep_none hi]; exact tickEvolved_refl l
  | some it =>
    by_cases hc : it.clientish = true
    · by_cases ht : it.ticks ≤ 0
      · rw [tickStep_skip hi (Or.inr ht)]; exact tickEvolved_refl l
      · by_cases ht1 : 1 < it.ticks
        · rw [tickStep_dec hi hc ht1]
          exact tickEvolved_upd (tickEvolved_refl l) i _
            (fun r => ⟨rfl, rfl, rfl, Or.inl rfl⟩)
        · have ht2 : it.ticks = 1 := by omega
          rw [tickStep_timeout hi hc ht2]
          show TickEvolved l (upd ((disconnect_fds
              (upd l i fun r => { r with ticks := r.ticks - 1 }) it.fd).2) i
              (fun r => { r with ticks := (-1 : Int) }))
          exact tickEvolved_upd
            (tickEvolved_disconnect
              (tickEvolved_upd (tickEvolved_refl l) i
                (fun r => { r with ticks := r.ticks - 1 })
                (fun r => ⟨rfl, rfl, rfl, Or.inl rfl⟩)) it.fd) i
            (fun r => { r with ticks := (-1 : Int) })
            (fun r => ⟨rfl, rfl, rfl, Or.inl rfl⟩)
    · rw [tickStep_skip hi (Or.inl (by simpa using hc))]
      exact tickEvolved_refl l

/-- `GoodNow` transfers along a `TickEvolved` evolution. -/
lemma goodNow_of_tickEvolved {l l' : List FdItem} (h : TickEvolved l l')
    (hg : GoodNow l) : GoodNow l' := by
  obtain ⟨hlen, hpt⟩ := h
  obtain ⟨hnd, hpos, hconn⟩ := hg
  have hback : ∀ (j : Nat) (r' : FdItem), l'.get? j = some r' →
      ∃ r, l.get? j = some r ∧ r'.fd = r.fd ∧ r'.kind = r.kind
        ∧ (r'.connected_to = r.connected_to ∨ r'.connected_to = -1) := by
    intro j r' hj
    cases hlj : l.get? j with
    | none =>
      exfalso
      rw [List.get?_eq_none] at hlj
      have hnone : l'.get? j = none := by rw [List.get?_eq_none]; omega
      rw [hnone] at hj
      cases hj
    | some r =>
      obtain ⟨r'', h'', hf'', hk'', _, hc''⟩ := hpt j r hlj
      rw [hj] at h''
      injection h'' with h''
      rw [← h''] at hf'' hk'' hc''
      exact ⟨r, rfl, hf'', hk'', hc''⟩
  refine ⟨?_, ?_, ?_⟩
  · have hmap : l'.map FdItem.fd = l.map FdItem.fd := by
      apply List.ext_get?
      intro j
      rw [List.get?_map, List.get?_map]
      cases hlj : l.get? j with
      | none =>
        have hnone : l'.get? j = none := by
          rw [List.get?_eq_none] at hlj ⊢
          omega
        rw [hnone]
      | some r =>
        obtain ⟨r', h', hf', _, _, _⟩ := hpt j r hlj
        rw [h']
        simp [hf']
    rw [hmap]
    exact hnd
  · intro r' hr'
    obtain ⟨j, hj⟩ := List.get?_of_mem hr'
    obtain ⟨r, hlj, hf', _, _⟩ := hback j r' hj
    rw [hf']
    exact hpos r (List.get?_mem hlj)
  · intro r' hr' hcl' hct'
    obtain ⟨j, hj⟩ := List.get?_of_mem hr'
    obtain ⟨r, hlj, hf', hk', hc'⟩ := hback j r' hj
    have hcl : r.clientish = true := by
      unfold FdItem.clientish at hcl' ⊢
      rwa [hk'] at hcl'
    have hct : r.connected_to ≠ -1 := by
      rcases hc' with hc' | hc'
      · rwa [hc'] at hct'
      · exact absurd hc' hct'
    obtain ⟨b, hbmem, hbfd, hbk⟩ := hconn r (List.get?_mem hlj) hcl hct
    obtain ⟨k, hk⟩ := List.get?_of_mem hbmem
    obtain ⟨b', hb', hbf', hbk', _, _⟩ := hpt k b hk
    refine ⟨b', List.get?_mem hb', ?_, hbk'.trans hbk⟩
    rw [hbf', hbfd]
    rcases hc' with hc' | hc'
    · rw [hc']
    · exact absurd hc' hct'

/-- Unwrapping `find_fd`: the record at the found position has the
sought fd. -/
lemma findFd_spec {l : List FdItem} {x : Int} {m : Nat}
    (h : findFd l x = some m) : ∃ rm, l.get? m = some rm ∧ rm.fd = x := by
  obtain ⟨rm, hrm, hp⟩ := findIdxQ_some_spec _ l m h
  exact ⟨rm, hrm, by simpa using hp⟩

/-- A BACKEND_CMD record is not a stream record. -/
lemma clientish_false_of_backend {r : FdItem}
    (h : r.kind = FdKind.BACKEND_CMD) : r.clientish = false := by
  unfold FdItem.clientish
  rw [h]
  rfl

/-- `tickedClient` does not change a record's kind. -/
lemma tickedClient_clientish (r : FdItem) :
    (tickedClient r).clientish = r.clientish := by
  unfold tickedClient
  split
  · rfl
  · split <;> rfl

/-- Under `GoodNow`, the record found at a stream record's
`connected_to` is a BACKEND_CMD record. -/
lemma goodNow_partner {l : List FdItem} (hg : GoodNow l) {i : Nat}
    {it : FdItem} (hi : l.get? i = some it) (hc : it.clientish = true)
    {o : Nat} (hfo : findFd l it.connected_to = some o) :
    ∃ ro, l.get? o = some ro ∧ ro.fd = it.connected_to
      ∧ ro.kind = FdKind.BACKEND_CMD := by
  obtain ⟨hnd, hpos, hconn⟩ := hg
  obtain ⟨ro, hro, hrofd⟩ := findFd_spec hfo
  by_cases hct : it.connected_to = -1
  · exfalso
    have := hpos ro (List.get?_mem hro)
    rw [hct] at hrofd
    omega
  · obtain ⟨b, hbmem, hbfd, hbk⟩ := hconn it (List.get?_mem hi) hc hct
    obtain ⟨k, hk⟩ := List.get?_of_mem hbmem
    have hko : k = o := fd_inj hnd hk hro (by rw [hbfd, hrofd])
    rw [hko] at hk
    refine ⟨ro, hro, hrofd, ?_⟩
    rw [hk] at hro
    injection hro with he
    rw [← he]
    exact hbk

/-- `disconnect_fds` leaves any position untouched that is neither the
disconnected record's nor its routing partner's. -/
lemma disconnect_frame {L : List FdItem} {fdq : Int} {j : Nat} {rj : FdItem}
    (hrj : L.get? j = some rj)
    (hm : ∀ m, findFd L fdq = some m → m ≠ j)
    (ho : ∀ m me, findFd L fdq = some m → L.get? m = some me →
        ∀ o, findFd L me.connected_to = some o → o ≠ j) :
    (disconnect_fds L fdq).2.get? j = some rj := by
  unfold disconnect_fds
  cases hfm : findFd L fdq with
  | none => exact hrj
  | some m =>
    simp only
    have hmj : m ≠ j := hm m hfm
    cases hLm : L.get? m with
    | none =>
      simp only [hLm, Option.getD_none]
      rw [if_neg (by decide : ¬ FdItem.mk0.connected_to = 0),
        if_pos (by decide : FdItem.mk0.connected_to = -1)]
      show (upd L m fun r => { r with ticks := (-1 : Int) }).get? j = some rj
      rw [upd_get_other _ hmj]
      exact hrj
    | some me =>
      simp only [hLm, Option.getD_some]
      by_cases h0 : me.connected_to = 0
      · rw [if_pos h0]
        show (upd L m fun r =>
          { r with connected_to := (-1 : Int) }).get? j = some rj
        rw [upd_get_other _ hmj]
        exact hrj
      · rw [if_neg h0]
        by_cases h1 : me.connected_to = -1
        · rw [if_pos h1]
          show (upd L m fun r =>
            { r with ticks := (-1 : Int) }).get? j = some rj
          rw [upd_get_other _ hmj]
          exact hrj
        · rw [if_neg h1]
          have hfo : findFd (upd L m fun r => { r with ticks := (-1 : Int) })
              me.connected_to = findFd L me.connected_to :=
            findFd_upd L m (fun r => { r with ticks := (-1 : Int) })
              (fun _ => rfl) me.connected_to
          cases hoo : findFd (upd L m fun r => { r with ticks := (-1 : Int) })
              me.connected_to with
          | none =>
            show (upd (upd L m fun r => { r with ticks := (-1 : Int) }) m
              fun r => { r with connected_to := (-1 : Int) }).get? j = some rj
            rw [upd_get_other _ hmj, upd_get_other _ hmj]
            exact hrj
          | some o =>
            have hoj : o ≠ j := ho m me hfm hLm o (by rw [← hfo]; exact hoo)
            show (upd (upd (upd L m fun r => { r with ticks := (-1 : Int) }) m
                fun r => { r with connected_to := (-1 : Int) }) o
              fun r => { r with connected_to := (-1 : Int),
                                ticks := (-1 : Int) }).get? j = some rj
            rw [upd_get_other _ hoj, upd_get_other _ hmj, upd_get_other _ hmj]
            exact hrj

/-- A heartbeat step at one position leaves every stream record at
another position untouched. -/
lemma tickStep_frame {l : List FdItem} (hg : GoodNow l) {i j : Nat}
    (hij : i ≠ j) {rj : FdItem} (hrj : l.get? j = some rj)
    (hclj : rj.clientish = true) :
    (tickStep l i).1.get? j = some rj := by
  cases hi : l.get? i with
  | none => rw [tickStep_none hi]; exact hrj
  | some it =>
    by_cases hc : it.clientish = true
    · by_cases ht : it.ticks ≤ 0
      · rw [tickStep_skip hi (Or.inr ht)]; exact hrj
      · by_cases ht1 : 1 < it.ticks
        · rw [tickStep_dec hi hc ht1]
          show (upd l i fun r => { r with ticks := r.ticks - 1 }).get? j
            = some rj
          rw [upd_get_other _ hij]
          exact hrj
        · have ht2 : it.ticks = 1 := by omega
          rw [tickStep_timeout hi hc ht2]
          show (upd ((disconnect_fds
              (upd l i fun r => { r with ticks := r.ticks - 1 }) it.fd).2) i
              fun r => { r with ticks := (-1 : Int) }).get? j = some rj
          rw [upd_get_other _ hij]
          have hl1j : (upd l i fun r =>
              { r with ticks := r.ticks - 1 }).get? j = some rj := by
            rw [upd_get_other _ hij]
            exact hrj
          apply disconnect_frame hl1j
          · intro m hfm hmj
            rw [findFd_upd l i (fun r => { r with ticks := r.ticks - 1 })
              (fun _ => rfl)] at hfm
            obtain ⟨rm, hrm, hrmfd⟩ := findFd_spec hfm
            rw [hmj, hrj] at hrm
            injection hrm with he
            exact hij (fd_inj hg.1 hi hrj (by rw [← hrmfd, he]))
          · intro m me hfm hme o hfo hoj
            rw [findFd_upd l i (fun r => { r with ticks := r.ticks - 1 })
              (fun _ => rfl)] at hfm
            rw [findFd_upd l i (fun r => { r with ticks := r.ticks - 1 })
              (fun _ => rfl)] at hfo
            obtain ⟨rm, hrm, hrmfd⟩ := findFd_spec hfm
            have hmi : m = i := fd_inj hg.1 hrm hi hrmfd
            rw [hmi] at hme
            rw [upd_get_same _ hi] at hme
            injection hme with hme
            rw [← hme] at hfo
            obtain ⟨ro, hro, hrofd, hrok⟩ :=
              goodNow_partner hg hi hc (o := o) hfo
            rw [hoj, hrj] at hro
            injection hro with he
            have : rj.clientish = false :=
              clientish_false_of_backend (by rw [he]; exact hrok)
            rw [this] at hclj
            cases hclj
    · rw [tickStep_skip hi (Or.inl (by simpa using hc))]
      exact hrj

/-- The heartbeat step at a stream record's own position: the record
becomes `tickedClient`, the emitted output is exactly the TIMEOUT error
on timeout, and on timeout the routing partner (a BACKEND_CMD record)
is cleared. -/
lemma tickStep_self {l : List FdItem} (hg : GoodNow l) {i : Nat}
    {r : FdItem} (hr : l.get? i = some r) (hcl : r.clientish = true) :
    (tickStep l i).1.get? i = some (tickedClient r)
    ∧ (tickStep l i).2
        = (if r.ticks = 1 then
            [Out.write r.fd (sendErrorStr r.expected "TIMEOUT".toList)]
           else [])
    ∧ (r.ticks = 1 → r.connected_to ≠ -1 →
        ∃ o b0, findFd l r.connected_to = some o ∧ o ≠ i
          ∧ l.get? o = some b0 ∧ b0.kind = FdKind.BACKEND_CMD
          ∧ (tickStep l i).1.get? o
              = some { b0 with connected_to := (-1 : Int),
                               ticks := (-1 : Int) }) := by
  obtain ⟨hnd, hpos, hconn⟩ := hg
  by_cases ht : r.ticks ≤ 0
  · rw [tickStep_skip hr (Or.inr ht)]
    refine ⟨?_, by rw [if_neg (by omega)], fun h1 => absurd h1 (by omega)⟩
    rw [show tickedClient r = r from by
      unfold tickedClient; rw [if_neg (by omega), if_neg (by omega)]]
    exact hr
  · by_cases ht1 : 1 < r.ticks
    · rw [tickStep_dec hr hcl ht1]
      refine ⟨?_, by rw [if_neg (by omega)], fun h1 => absurd h1 (by omega)⟩
      rw [show tickedClient r = { r with ticks := r.ticks - 1 } from by
        unfold tickedClient; rw [if_pos ht1]]
      exact upd_get_same _ hr
    · have ht2 : r.ticks = 1 := by omega
      rw [tickStep_timeout hr hcl ht2]
      have hl1i : (upd l i fun q => { q with ticks := q.ticks - 1 }).get? i
          = some { r with ticks := r.ticks - 1 } := upd_get_same _ hr
      have hfm : findFd (upd l i fun q => { q with ticks := q.ticks - 1 })
          r.fd = some i := by
        rw [findFd_upd l i (fun q => { q with ticks := q.ticks - 1 })
          (fun _ => rfl)]
        exact findFd_self hnd hr
      by_cases hcm1 : r.connected_to = -1
      · have hD : (disconnect_fds
              (upd l i fun q => { q with ticks := q.ticks - 1 }) r.fd).2
            = upd (upd l i fun q => { q with ticks := q.ticks - 1 }) i
                (fun q => { q with ticks := (-1 : Int) }) := by
          unfold disconnect_fds
          rw [hfm]
          simp only [hl1i, Option.getD_some]
          rw [if_neg (by simp [hcm1]), if_pos (by simpa using hcm1)]
        have htc : tickedClient r = { r with ticks := (-1 : Int) } := by
          unfold tickedClient
          rw [if_neg (by omega), if_pos ht2]
          nth_rewrite 1 [show (-1 : Int) = r.connected_to from hcm1.symm]
          rfl
        refine ⟨?_, by rw [if_pos ht2], fun _ hc2 => absurd hcm1 hc2⟩
        show (upd ((disconnect_fds
            (upd l i fun q => { q with ticks := q.ticks - 1 }) r.fd).2) i
            fun q => { q with ticks := (-1 : Int) }).get? i
            = some (tickedClient r)
        have hstep := upd_get_same (fun q => { q with ticks := (-1 : Int) })
          hl1i
        have hfin := upd_get_same (fun q => { q with ticks := (-1 : Int) })
          hstep
        rw [hD, htc]
        exact hfin
      · obtain ⟨b, hbmem, hbfd, hbk⟩ := hconn r (List.get?_mem hr) hcl hcm1
        obtain ⟨k, hk⟩ := List.get?_of_mem hbmem
        have hfk : findFd l r.connected_to = some k := by
          rw [← hbfd]
          exact findFd_self hnd hk
        have hki : k ≠ i := by
          intro hki
          rw [hki, hr] at hk
          injection hk with hk
          have hrb : r.clientish = false :=
            clientish_false_of_backend (by rw [hk]; exact hbk)
          rw [hrb] at hcl
          cases hcl
        have hik : i ≠ k := Ne.symm hki
        have hc0 : r.connected_to ≠ 0 := by
          rw [← hbfd]
          have := hpos b hbmem
          omega
        have hfo2 : findFd (upd (upd l i fun q =>
              { q with ticks := q.ticks - 1 }) i
              fun q => { q with ticks := (-1 : Int) }) r.connected_to
            = some k := by
          rw [findFd_upd _ i (fun q => { q with ticks := (-1 : Int) })
            (fun _ => rfl),
            findFd_upd l i (fun q => { q with ticks := q.ticks - 1 })
            (fun _ => rfl)]
          exact hfk
        have hD : (disconnect_fds
              (upd l i fun q => { q with ticks := q.ticks - 1 }) r.fd).2
            = upd (upd (upd (upd l i fun q =>
                  { q with ticks := q.ticks - 1 }) i
                  fun q => { q with ticks := (-1 : Int) }) i
                  (fun q => { q with connected_to := (-1 : Int) })) k
                (fun q => { q with connected_to := (-1 : Int),
                                   ticks := (-1 : Int) }) := by
          unfold disconnect_fds
          rw [hfm]
          simp only [hl1i, Option.getD_some]
          rw [if_neg (by simp [hc0]), if_neg (by simpa using hcm1), hfo2]
        have h1 := upd_get_same (fun q => { q with ticks := (-1 : Int) }) hl1i
        have h2 := upd_get_same
          (fun q => { q with connected_to := (-1 : Int) }) h1
        have h3 : (upd (upd (upd (upd l i fun q =>
            { q with ticks := q.ticks - 1 }) i
            fun q => { q with ticks := (-1 : Int) }) i
            (fun q => { q with connected_to := (-1 : Int) })) k
            (fun q => { q with connected_to := (-1 : Int),
                               ticks := (-1 : Int) })).get? i
            = some { r with connected_to := (-1 : Int),
                            ticks := (-1 : Int) } := by
          rw [upd_get_other _ hki]
          exact h2
        have hbk3 : (upd (upd (upd l i fun q =>
            { q with ticks := q.ticks - 1 }) i
            fun q => { q with ticks := (-1 : Int) }) i
            (fun q => { q with connected_to := (-1 : Int) })).get? k
            = some b := by
          rw [upd_get_other _ hik, upd_get_other _ hik, upd_get_other _ hik]
          exact hk
        have htc : tickedClient r
            = { r with connected_to := (-1 : Int), ticks := (-1 : Int) } := by
          unfold tickedClient
          rw [if_neg (by omega), if_pos ht2]
        refine ⟨?_, by rw [if_pos ht2],
          fun _ _ => ⟨k, b, hfk, hki, hk, hbk, ?_⟩⟩
        · show (upd ((disconnect_fds
              (upd l i fun q => { q with ticks := q.ticks - 1 }) r.fd).2) i
              fun q => { q with ticks := (-1 : Int) }).get? i
              = some (tickedClient r)
          rw [hD, htc]
          exact upd_get_same _ h3
        · show (upd ((disconnect_fds
              (upd l i fun q => { q with ticks := q.ticks - 1 }) r.fd).2) i
              fun q => { q with ticks := (-1 : Int) }).get? k
              = some { b with connected_to := (-1 : Int),
                              ticks := (-1 : Int) }
          rw [hD, upd_get_other _ hik]
          exact upd_get_same _ hbk3

/-- The output of one heartbeat step: empty, or a single TIMEOUT error
for a stream record on its last tick. -/
lemma tickStep_outs (l : List FdItem) (i : Nat) :
    (tickStep l i).2 = []
    ∨ ∃ ri, l.get? i = some ri ∧ ri.clientish = true ∧ ri.ticks = 1
        ∧ (tickStep l i).2
          = [Out.write ri.fd (sendErrorStr ri.expected "TIMEOUT".toList)] := by
  cases hi : l.get? i with
  | none => rw [tickStep_none hi]; exact Or.inl rfl
  | some it =>
    by_cases hc : it.clientish = true
    · by_cases ht : it.ticks ≤ 0
      · rw [tickStep_skip hi (Or.inr ht)]; exact Or.inl rfl
      · by_cases ht1 : 1 < it.ticks
        · rw [tickStep_dec hi hc ht1]; exact Or.inl rfl
        · have ht2 : it.ticks = 1 := by omega
          rw [tickStep_timeout hi hc ht2]
          exact Or.inr ⟨it, rfl, hc, ht2, rfl⟩
    · rw [tickStep_skip hi (Or.inl (by simpa using hc))]; exact Or.inl rfl

/-- Reading a stream record back through one heartbeat step at another
position. -/
lemma frame_back {l : List FdItem} (hg : GoodNow l) {s j : Nat} (hsj : s ≠ j)
    {rj' : FdItem} (h1 : (tickStep l s).1.get? j = some rj')
    (hcl' : rj'.clientish = true) : l.get? j = some rj' := by
  cases hlj : l.get? j with
  | none =>
    exfalso
    have hlen := (tickEvolved_tickStep l s).1
    rw [List.get?_eq_none] at hlj
    have hnone : (tickStep l s).1.get? j = none := by
      rw [List.get?_eq_none]
      omega
    rw [hnone] at h1
    cases h1
  | some rj =>
    obtain ⟨r', h', _, hk', _, _⟩ := (tickEvolved_tickStep l s).2 j rj hlj
    rw [h1] at h'
    injection h' with h'
    have hkk : rj'.kind = rj.kind := by rw [h']; exact hk'
    have hclj : rj.clientish = true := by
      unfold FdItem.clientish at hcl' ⊢
      rwa [hkk] at hcl'
    have hfr := tickStep_frame hg hsj hlj hclj
    rw [h1] at hfr
    injection hfr with hfr
    rw [hfr]

/-- `disconnect_fds` keeps a cleared record cleared (and keeps its
kind). -/
lemma disconnect_cleared {L : List FdItem} (fdq : Int) {p : Nat} {b : FdItem}
    (hb : L.get? p = some b) (hct : b.connected_to = -1)
    (htk : b.ticks = -1) :
    ∃ b', (disconnect_fds L fdq).2.get? p = some b' ∧ b'.kind = b.kind
      ∧ b'.connected_to = -1 ∧ b'.ticks = -1 := by
  unfold disconnect_fds
  cases hfm : findFd L fdq with
  | none => exact ⟨b, hb, rfl, hct, htk⟩
  | some m =>
    simp only
    by_cases hpm : p = m
    · rw [← hpm, hb]
      simp only [Option.getD_some]
      rw [if_neg (by rw [hct]; decide), if_pos hct]
      show ∃ b', (upd L p fun r =>
          { r with ticks := (-1 : Int) }).get? p = some b' ∧ _
      exact ⟨_, upd_get_same _ hb, rfl, hct, rfl⟩
    · cases hLm : L.get? m with
      | none =>
        simp only [hLm, Option.getD_none]
        rw [if_neg (by decide : ¬ FdItem.mk0.connected_to = 0),
          if_pos (by decide : FdItem.mk0.connected_to = -1)]
        refine ⟨b, ?_, rfl, hct, htk⟩
        show (upd L m fun r => { r with ticks := (-1 : Int) }).get? p = some b
        rw [upd_get_other _ (Ne.symm hpm)]
        exact hb
      | some me =>
        simp only [hLm, Option.getD_some]
        by_cases h0 : me.connected_to = 0
        · rw [if_pos h0]
          refine ⟨b, ?_, rfl, hct, htk⟩
          show (upd L m fun r =>
            { r with connected_to := (-1 : Int) }).get? p = some b
          rw [upd_get_other _ (Ne.symm hpm)]
          exact hb
        · rw [if_neg h0]
          by_cases h1 : me.connected_to = -1
          · rw [if_pos h1]
            refine ⟨b, ?_, rfl, hct, htk⟩
            show (upd L m fun r =>
              { r with ticks := (-1 : Int) }).get? p = some b
            rw [upd_get_other _ (Ne.symm hpm)]
            exact hb
          · rw [if_neg h1]
            cases hoo : findFd (upd L m fun r =>
                { r with ticks := (-1 : Int) }) me.connected_to with
            | none =>
              refine ⟨b, ?_, rfl, hct, htk⟩
              show (upd (upd L m fun r => { r with ticks := (-1 : Int) }) m
                fun r => { r with connected_to := (-1 : Int) }).get? p
                = some b
              rw [upd_get_other _ (Ne.symm hpm),
                upd_get_other _ (Ne.symm hpm)]
              exact hb
            | some o =>
              by_cases hpo : p = o
              · have hb2 : (upd (upd L m fun r =>
                    { r with ticks := (-1 : Int) }) m
                    fun r => { r with connected_to := (-1 : Int) }).get? p
                    = some b := by
                  rw [upd_get_other _ (Ne.symm hpm),
                    upd_get_other _ (Ne.symm hpm)]
                  exact hb
                rw [← hpo]
                refine ⟨_, upd_get_same _ hb2, rfl, rfl, rfl⟩
              · refine ⟨b, ?_, rfl, hct, htk⟩
                show (upd (upd (upd L m fun r =>
                    { r with ticks := (-1 : Int) }) m
                    fun r => { r with connected_to := (-1 : Int) }) o
                  fun r => { r with connected_to := (-1 : Int),
                                    ticks := (-1 : Int) }).get? p = some b
                rw [upd_get_other _ (Ne.symm hpo),
                  upd_get_other _ (Ne.symm hpm),
                  upd_get_other _ (Ne.symm hpm)]
                exact hb

/-- A heartbeat step keeps a cleared non-stream record cleared. -/
lemma tickStep_clear_persist {l : List FdItem} {s p : Nat} {b : FdItem}
    (hb : l.get? p = some b) (hcl : b.clientish = false)
    (hct : b.connected_to = -1) (htk : b.ticks = -1) :
    ∃ b', (tickStep l s).1.get? p = some b' ∧ b'.clientish = false
      ∧ b'.connected_to = -1 ∧ b'.ticks = -1 := by
  cases hi : l.get? s with
  | none => rw [tickStep_none hi]; exact ⟨b, hb, hcl, hct, htk⟩
  | some it =>
    by_cases hc : it.clientish = true
    · have hps : p ≠ s := by
        intro hps
        rw [hps, hi] at hb
        injection hb with hb
        rw [← hb] at hcl
        rw [hcl] at hc
        cases hc
      by_cases ht : it.ticks ≤ 0
      · rw [tickStep_skip hi (Or.inr ht)]; exact ⟨b, hb, hcl, hct, htk⟩
      · by_cases ht1 : 1 < it.ticks
        · rw [tickStep_dec hi hc ht1]
          refine ⟨b, ?_, hcl, hct, htk⟩
          show (upd l s fun r => { r with ticks := r.ticks - 1 }).get? p
            = some b
          rw [upd_get_other _ (Ne.symm hps)]
          exact hb
        · have ht2 : it.ticks = 1 := by omega
          rw [tickStep_timeout hi hc ht2]
          have hb1 : (upd l s fun r =>
              { r with ticks := r.ticks - 1 }).get? p = some b := by
            rw [upd_get_other _ (Ne.symm hps)]
            exact hb
          obtain ⟨b2, hb2, hbk2, hbc2, hbt2⟩ :=
            disconnect_cleared it.fd hb1 hct htk
          refine ⟨b2, ?_, ?_, hbc2, hbt2⟩
          · show (upd ((disconnect_fds (upd l s fun r =>
                { r with ticks := r.ticks - 1 }) it.fd).2) s
                fun r => { r with ticks := (-1 : Int) }).get? p = some b2
            rw [upd_get_other _ (Ne.symm hps)]
            exact hb2
          · unfold FdItem.clientish at hcl ⊢
            rwa [hbk2]
    · rw [tickStep_skip hi (Or.inl (by simpa using hc))]
      exact ⟨b, hb, hcl, hct, htk⟩

/-- A heartbeat step does not change `find_fd`. -/
lemma findFd_tickStep (l : List FdItem) (s : Nat) (x : Int) :
    findFd (tickStep l s).1 x = findFd l x := by
  have hE := tickEvolved_tickStep l s
  apply findFd_eq_of_pointwise
  intro j
  cases hlj : l.get? j with
  | none =>
    have h1 : (tickStep l s).1.get? j = none := by
      rw [List.get?_eq_none] at hlj ⊢
      have := hE.1
      omega
    rw [h1]
  | some r =>
    obtain ⟨r', h', hf', _, _, _⟩ := hE.2 j r hlj
    rw [h']
    simp [hf']

/-- The heartbeat pass from position `s` with the given fuel: stream
records outside the window are untouched, stream records inside become
`tickedClient`, the writes directed at an in-window record's fd are
exactly its TIMEOUT error when it times out, cleared non-stream records
stay cleared, and a timing-out record's routing partner ends
cleared. -/
lemma tickFrom_spec :
    ∀ (fuel : Nat) (l : List FdItem) (s : Nat), GoodNow l →
      TickEvolved l (tickFrom l s fuel).1
      ∧ (∀ j rj, l.get? j = some rj → rj.clientish = true →
          (j < s ∨ s + fuel ≤ j) → (tickFrom l s fuel).1.get? j = some rj)
      ∧ (∀ j rj, l.get? j = some rj → rj.clientish = true →
          s ≤ j → j < s + fuel →
          (tickFrom l s fuel).1.get? j = some (tickedClient rj))
      ∧ (∀ o ∈ (tickFrom l s fuel).2, ∃ j rj, s ≤ j ∧ j < s + fuel
          ∧ l.get? j = some rj ∧ rj.clientish = true ∧ rj.ticks = 1
          ∧ o = Out.write rj.fd (sendErrorStr rj.expected "TIMEOUT".toList))
      ∧ (∀ j rj, l.get? j = some rj → rj.clientish = true →
          s ≤ j → j < s + fuel →
          outsTo rj.fd (tickFrom l s fuel).2
            = (if rj.ticks = 1 then
                [Out.write rj.fd (sendErrorStr rj.expected "TIMEOUT".toList)]
               else []))
      ∧ (∀ p b, l.get? p = some b → b.clientish = false →
          b.connected_to = -1 → b.ticks = -1 →
          ∃ b', (tickFrom l s fuel).1.get? p = some b'
            ∧ b'.connected_to = -1 ∧ b'.ticks = -1)
      ∧ (∀ j rj, l.get? j = some rj → rj.clientish = true →
          s ≤ j → j < s + fuel → rj.ticks = 1 → rj.connected_to ≠ -1 →
          ∃ p b', findFd l rj.connected_to = some p
            ∧ (tickFrom l s fuel).1.get? p = some b'
            ∧ b'.connected_to = -1 ∧ b'.ticks = -1) := by
  intro fuel
  induction fuel with
  | zero =>
    intro l s hg
    refine ⟨tickEvolved_refl l, ?_, ?_, ?_, ?_, ?_, ?_⟩
    · intro j rj hrj _ _
      exact hrj
    · intro j rj _ _ h1 h2
      exact absurd h2 (by omega)
    · intro o ho
      have ho' : o ∈ ([] : List Out) := ho
      cases ho'
    · intro j rj _ _ h1 h2
      exact absurd h2 (by omega)
    · intro p b hb _ hct htk
      exact ⟨b, hb, hct, htk⟩
    · intro j rj _ _ h1 h2 _ _
      exact absurd h2 (by omega)
  | succ fuel ih =>
    intro l s hg
    have hE1 := tickEvolved_tickStep l s
    have hg1 := goodNow_of_tickEvolved hE1 hg
    obtain ⟨IH1, IH2, IH3, IH4, IH5, IH6, IH7⟩ :=
      ih (tickStep l s).1 (s + 1) hg1
    refine ⟨?_, ?_, ?_, ?_, ?_, ?_, ?_⟩
    · exact tickEvolved_trans hE1 IH1
    · intro j rj hrj hclj hout
      have hsj : s ≠ j := by omega
      have hstep := tickStep_frame hg hsj hrj hclj
      exact IH2 j rj hstep hclj (by omega)
    · intro j rj hrj hclj hsle hslt
      by_cases hjs : j = s
      · subst hjs
        have hself := (tickStep_self hg hrj hclj).1
        have hcl2 : (tickedClient rj).clientish = true := by
          rw [tickedClient_clientish]
          exact hclj
        exact IH2 j (tickedClient rj) hself hcl2 (Or.inl (by omega))
      · have hsj : s ≠ j := fun h => hjs h.symm
        have hstep := tickStep_frame hg hsj hrj hclj
        exact IH3 j rj hstep hclj (by omega) (by omega)
    · intro o ho
      have ho' : o ∈ (tickStep l s).2
          ++ (tickFrom (tickStep l s).1 (s + 1) fuel).2 := ho
      rcases List.mem_append.mp ho' with h | h
      · rcases tickStep_outs l s with hnil | ⟨ri, hri, hric, hrit, heq⟩
        · rw [hnil] at h
          cases h
        · rw [heq] at h
          exact ⟨s, ri, le_refl s, by omega, hri, hric, hrit,
            List.mem_singleton.mp h⟩
      · obtain ⟨j, rj', hj1, hj2, hjget, hjcl, hjt, hoq⟩ := IH4 o h
        have hsj : s ≠ j := by omega
        have hback := frame_back hg hsj hjget hjcl
        exact ⟨j, rj', by omega, by omega, hback, hjcl, hjt, hoq⟩
    · intro j rj hrj hclj hsle hslt
      have houts : outsTo rj.fd ((tickStep l s).2
            ++ (tickFrom (tickStep l s).1 (s + 1) fuel).2)
          = outsTo rj.fd (tickStep l s).2
            ++ outsTo rj.fd (tickFrom (tickStep l s).1 (s + 1) fuel).2 := by
        unfold outsTo
        exact List.filter_append _ _
      by_cases hjs : j = s
      · subst hjs
        have hself := (tickStep_self hg hrj hclj).2.1
        have htail : outsTo rj.fd
            (tickFrom (tickStep l j).1 (j + 1) fuel).2 = [] := by
          unfold outsTo
          apply List.filter_eq_nil.mpr
          intro a ha
          obtain ⟨j', rj'', hj1, hj2, hjget, hjcl2, _, hoq⟩ := IH4 a ha
          have hsj' : j ≠ j' := by omega
          have hback := frame_back hg hsj' hjget hjcl2
          have hne : rj''.fd ≠ rj.fd := by
            intro hfd
            have := fd_inj hg.1 hback hrj hfd
            omega
          rw [hoq]
          simp [hne]
        show outsTo rj.fd ((tickStep l j).2
            ++ (tickFrom (tickStep l j).1 (j + 1) fuel).2) = _
        rw [houts, hself, htail]
        by_cases ht : rj.ticks = 1
        · rw [if_pos ht]
          simp [outsTo]
        · rw [if_neg ht]
          rfl
      · have hsj : s ≠ j := fun h => hjs h.symm
        have hstep := tickStep_frame hg hsj hrj hclj
        have hhead : outsTo rj.fd (tickStep l s).2 = [] := by
          rcases tickStep_outs l s with hnil | ⟨ri, hri, hric, hrit, heq⟩
          · rw [hnil]
            rfl
          · rw [heq]
            have hne : ri.fd ≠ rj.fd := by
              intro hfd
              exact hsj (fd_inj hg.1 hri hrj hfd)
            simp [outsTo, hne]
        have htail := IH5 j rj hstep hclj (by omega) (by omega)
        show outsTo rj.fd ((tickStep l s).2
            ++ (tickFrom (tickStep l s).1 (s + 1) fuel).2) = _
        rw [houts, hhead, htail]
        exact List.nil_append _
    · intro p b hb hbcl hbct hbtk
      obtain ⟨b1, hb1, hb1cl, hb1ct, hb1tk⟩ :=
        tickStep_clear_persist hb hbcl hbct hbtk
      exact IH6 p b1 hb1 hb1cl hb1ct hb1tk
    · intro j rj hrj hclj hsle hslt ht1 hctm
      by_cases hjs : j = s
      · subst hjs
        obtain ⟨o, b0, hfo, hoi, hb0, hb0k, hostep⟩ :=
          (tickStep_self hg hrj hclj).2.2 ht1 hctm
        have hb1cl : ({ b0 with connected_to := -1, ticks := -1 }
            : FdItem).clientish = false := clientish_false_of_backend hb0k
        obtain ⟨b', hb', hb'ct, hb'tk⟩ := IH6 o
          { b0 with connected_to := (-1 : Int), ticks := (-1 : Int) }
          hostep hb1cl rfl rfl
        exact ⟨o, b', hfo, hb', hb'ct, hb'tk⟩
      · have hsj : s ≠ j := fun h => hjs h.symm
        have hstep := tickStep_frame hg hsj hrj hclj
        obtain ⟨p, b', hfp, hb', hb'ct, hb'tk⟩ :=
          IH7 j rj hstep hclj (by omega) (by omega) ht1 hctm
        rw [findFd_tickStep] at hfp
        exact ⟨p, b', hfp, hb', hb'ct, hb'tk⟩

/-- C3: the heartbeat-tick contract of `dosigalrm`.  On a well-formed
registry (distinct positive fds, stream routing idle or pointing at a
BACKEND_CMD record), one pass decrements the tick counter on exactly
the CLIENT_STREAM/CTRL_STREAM records whose counter is armed
(`tickedClient`: `ticks > 1` decremented, `ticks = 1` disarmed with
the routing cleared, `ticks ≤ 0` untouched); the writes directed at a
stream record's fd are exactly one ERROR reply — message part the
record's expected directive, single data line TIMEOUT — when its
counter reaches zero and none otherwise; and the timing-out record's
routing partner ends with `connected_to` cleared and ticks
disarmed. -/
theorem c3_heartbeat_tick_contract (l : List FdItem) (hg : GoodNow l)
    (i : Nat) (r : FdItem) (hr : l.get? i = some r)
    (hcl : r.clientish = true) :
    (dosigalrm l).1.get? i = some (tickedClient r)
    ∧ outsTo r.fd (dosigalrm l).2
        = (if r.ticks = 1 then
            [Out.write r.fd (sendErrorStr r.expected "TIMEOUT".toList)]
           else [])
    ∧ (r.ticks = 1 → r.connected_to ≠ -1 →
        ∃ p b, findFd l r.connected_to = some p
          ∧ (dosigalrm l).1.get? p = some b
          ∧ b.connected_to = -1 ∧ b.ticks = -1) := by
  have hi : i < l.length := by
    by_contra hge
    rw [List.get?_eq_none.mpr (by omega)] at hr
    cases hr
  obtain ⟨_, _, H3, _, H5, _, H7⟩ := tickFrom_spec l.length l 0 hg
  refine ⟨H3 i r hr hcl (by omega) (by omega), H5 i r hr hcl (by omega)
    (by omega), fun h1 hc2 => H7 i r hr hcl (by omega) (by omega) h1 hc2⟩

/-- Witness for `c3_heartbeat_tick_contract`: on the concrete registry
`c3List` the client at position 5 (fd 10, one tick left on a routed
SEND_ONCE) times out: its record is disarmed and unrouted, the pass
emits exactly one TIMEOUT error to fd 10, and the backend command
record it was routed to (fd 5) ends cleared. -/
theorem c3_heartbeat_tick_contract_witness :
    (dosigalrm c3List).1.get? 5
      = some (tickedClient
          { fd := 10, kind := .CLIENT_STREAM, pid := 0, peer := -1,
            connected_to := 5, id := "undef".toList,
            expected := "SEND_ONCE".toList, ticks := 1,
            parser := ReplyParser.fresh })
    ∧ outsTo 10 (dosigalrm c3List).2
      = [Out.write 10 (sendErrorStr "SEND_ONCE".toList "TIMEOUT".toList)]
    ∧ ∃ p b, findFd c3List 5 = some p
        ∧ (dosigalrm c3List).1.get? p = some b
        ∧ b.connected_to = -1 ∧ b.ticks = -1 := by
  have h := c3_heartbeat_tick_contract c3List (by decide) 5
    { fd := 10, kind := .CLIENT_STREAM, pid := 0, peer := -1,
      connected_to := 5, id := "undef".toList,
      expected := "SEND_ONCE".toList, ticks := 1,
      parser := ReplyParser.fresh }
    (by decide) (by decide)
  refine ⟨h.1, ?_, h.2.2 (by decide) (by decide)⟩
  have h2 := h.2.1
  simpa using h2

/-! ## C2: guarded routing symmetry -/

/-- Pointwise fd agreement between registries. -/
def SameFds (l l' : List FdItem) : Prop :=
  ∀ j, (l.get? j).map FdItem.fd = (l'.get? j).map FdItem.fd

lemma sameFds_refl (l : List FdItem) : SameFds l l := fun _ => rfl

lemma sameFds_trans {l1 l2 l3 : List FdItem} (h12 : SameFds l1 l2)
    (h23 : SameFds l2 l3) : SameFds l1 l3 :=
  fun j => (h12 j).trans (h23 j)

/-- An fd-preserving update preserves the fds pointwise. -/
lemma sameFds_upd (l : List FdItem) (i : Nat) (f : FdItem → FdItem)
    (hf : ∀ r, (f r).fd = r.fd) : SameFds l (upd l i f) := by
  intro j
  by_cases hj : i = j
  · subst hj
    cases hv : l.get? i with
    | none =>
      have hnone : (upd l i f).get? i = none := by
        unfold upd
        rw [hv]
        exact hv
      rw [hnone]
    | some r =>
      rw [upd_get_same f hv]
      simp [hf]
  · rw [upd_get_other f hj]

/-- `connect_fds` does not change the fds. -/
lemma sameFds_connect (l : List FdItem) (c b : Int) :
    SameFds l (connect_fds l c b).2 := by
  unfold connect_fds
  cases hfb : findFd l b with
  | none => exact sameFds_refl l
  | some jb =>
    simp only
    by_cases hc0 : c = 0
    · rw [if_pos hc0]
      exact sameFds_upd l jb _ (fun _ => rfl)
    · rw [if_neg hc0]
      have h1 := sameFds_upd l jb
        (fun r => { r with connected_to := c }) (fun _ => rfl)
      cases hfc : findFd (upd l jb fun r => { r with connected_to := c }) c
          with
      | none => exact h1
      | some jc =>
        exact sameFds_trans h1 (sameFds_upd _ jc _ (fun _ => rfl))

/-- `disconnect_fds` does not change the fds. -/
lemma sameFds_disconnect (l : List FdItem) (f : Int) :
    SameFds l (disconnect_fds l f).2 := by
  unfold disconnect_fds
  cases hfm : findFd l f with
  | none => exact sameFds_refl l
  | some m =>
    simp only
    by_cases h0 : ((l.get? m).getD FdItem.mk0).connected_to = 0
    · rw [if_pos h0]
      exact sameFds_upd l m _ (fun _ => rfl)
    · rw [if_neg h0]
      have h1 := sameFds_upd l m
        (fun r => { r with ticks := (-1 : Int) }) (fun _ => rfl)
      by_cases h2 : ((l.get? m).getD FdItem.mk0).connected_to = -1
      · rw [if_pos h2]
        exact h1
      · rw [if_neg h2]
        have h3 := sameFds_trans h1 (sameFds_upd _ m
          (fun r => { r with connected_to := (-1 : Int) }) (fun _ => rfl))
        cases ho : findFd (upd l m fun r => { r with ticks := (-1 : Int) })
            ((l.get? m).getD FdItem.mk0).connected_to with
        | none => exact h3
        | some o =>
          exact sameFds_trans h3 (sameFds_upd _ o _ (fun _ => rfl))

/-- `WFfd` transfers along pointwise fd agreement. -/
lemma wffd_of_sameFds {l l' : List FdItem} (h : SameFds l l')
    (hwf : WFfd l) : WFfd l' := by
  obtain ⟨hnd, hpos⟩ := hwf
  have hmap : l'.map FdItem.fd = l.map FdItem.fd := by
    apply List.ext_get?
    intro j
    rw [List.get?_map, List.get?_map]
    exact (h j).symm
  refine ⟨by rw [hmap]; exact hnd, ?_⟩
  intro r' hr'
  obtain ⟨j, hj⟩ := List.get?_of_mem hr'
  have hp := h j
  rw [hj] at hp
  cases hlj : l.get? j with
  | none =>
    rw [hlj] at hp
    cases hp
  | some r =>
    rw [hlj] at hp
    simp only [Option.map_some'] at hp
    injection hp with hp2
    rw [← hp2]
    exact hpos r (List.get?_mem hlj)

/-- Nothing points at an idle record. -/
lemma no_ptr_of_idle {l : List FdItem} (hinv : InvStrong l)
    (hpos : ∀ r ∈ l, 0 < r.fd) {j : Nat} {rj : FdItem}
    (hj : l.get? j = some rj) (hidle : rj.connected_to = -1) :
    ∀ i a, l.get? i = some a → a.connected_to ≠ rj.fd := by
  intro i a hi hct
  have hsym := (hinv i a j rj hi hj hct).1
  rw [hidle] at hsym
  have := hpos a (List.get?_mem hi)
  omega

/-- A fully idle registry with positive fds satisfies the strict
routing invariant. -/
lemma invStrong_of_all_idle (l : List FdItem)
    (hpos : ∀ r ∈ l, 0 < r.fd)
    (hidle : ∀ r ∈ l, r.connected_to = -1) : InvStrong l := by
  intro i a j b hi hj hct
  exfalso
  have h1 := hidle a (List.get?_mem hi)
  have h2 := hpos b (List.get?_mem hj)
  rw [h1] at hct
  omega

/-- A guarded `connect_fds` call preserves the strict routing
invariant. -/
lemma invStrong_connect {l : List FdItem} (hwf : WFfd l)
    (hinv : InvStrong l) {c b : Int} (hg : ConnGuard l c b) :
    InvStrong (connect_fds l c b).2 := by
  obtain ⟨hnd, hpos⟩ := hwf
  obtain ⟨hc, ⟨rb, hrbmem, hrbfd, hrbidle⟩, hcb⟩ := hg
  obtain ⟨jb, hjb⟩ := List.get?_of_mem hrbmem
  have hfb : findFd l b = some jb := by
    rw [← hrbfd]
    exact findFd_self hnd hjb
  have hbpos : 0 < b := by
    rw [← hrbfd]
    exact hpos rb hrbmem
  have hnb : ∀ i a, l.get? i = some a → a.connected_to ≠ rb.fd :=
    no_ptr_of_idle hinv hpos hjb hrbidle
  by_cases hc0 : c = 0
  · -- local connect: only the backend record is marked
    have hL : (connect_fds l c b).2
        = upd l jb (fun r => { r with connected_to := (0 : Int) }) := by
      unfold connect_fds
      rw [hfb]
      simp only
      rw [if_pos hc0]
    rw [hL]
    have hGb : (upd l jb
          (fun r => { r with connected_to := (0 : Int) })).get? jb
        = some { rb with connected_to := (0 : Int) } :=
      upd_get_same _ hjb
    have hpos' : ∀ r' ∈ upd l jb
        (fun r => { r with connected_to := (0 : Int) }), 0 < r'.fd :=
      (wffd_of_sameFds (sameFds_upd l jb
        (fun r => { r with connected_to := (0 : Int) }) (fun _ => rfl))
        ⟨hnd, hpos⟩).2
    intro i a j b' hi hj hct
    by_cases hib : i = jb
    · subst hib
      rw [hGb] at hi
      injection hi with hi
      subst hi
      exfalso
      have hct' : (0 : Int) = b'.fd := hct
      have := hpos' b' (List.get?_mem hj)
      omega
    · rw [upd_get_other _ (fun h => hib h.symm)] at hi
      by_cases hjb' : j = jb
      · subst hjb'
        rw [hGb] at hj
        injection hj with hj
        subst hj
        exfalso
        exact hnb i a hi hct
      · rw [upd_get_other _ (fun h => hjb' h.symm)] at hj
        obtain ⟨hsym, huniq⟩ := hinv i a j b' hi hj hct
        refine ⟨hsym, ?_⟩
        intro k a' hk hct2
        by_cases hkb : k = jb
        · subst hkb
          rw [hGb] at hk
          injection hk with hk
          exfalso
          have hct2' : (0 : Int) = b'.fd := by
            rw [← hct2, ← hk]
          have := hpos b' (List.get?_mem hj)
          omega
        · rw [upd_get_other _ (fun h => hkb h.symm)] at hk
          exact huniq k a' hk hct2
  · -- a real client: both ends are linked
    rcases hc with hc' | ⟨rc, hrcmem, hrcfd, hrcidle⟩
    · exact absurd hc' hc0
    obtain ⟨jc, hjc⟩ := List.get?_of_mem hrcmem
    have hcpos : 0 < c := by
      rw [← hrcfd]
      exact hpos rc hrcmem
    have hnc : ∀ i a, l.get? i = some a → a.connected_to ≠ rc.fd :=
      no_ptr_of_idle hinv hpos hjc hrcidle
    have hjbc : jb ≠ jc := by
      intro h
      rw [h, hjc] at hjb
      injection hjb with hjb
      rw [← hjb, hrcfd] at hrbfd
      exact hcb hrbfd
    have hfc1 : findFd (upd l jb fun r => { r with connected_to := c }) c
        = some jc := by
      rw [findFd_upd l jb (fun r => { r with connected_to := c })
        (fun _ => rfl), ← hrcfd]
      exact findFd_self hnd hjc
    have hL : (connect_fds l c b).2
        = upd (upd l jb fun r => { r with connected_to := c }) jc
            (fun r => { r with connected_to := b,
                               ticks := COMMAND_TIMEOUT_TICKS }) := by
      unfold connect_fds
      rw [hfb]
      simp only
      rw [if_neg hc0, hfc1]
    rw [hL]
    have hGb : (upd (upd l jb fun r => { r with connected_to := c }) jc
          (fun r => { r with connected_to := b,
                             ticks := COMMAND_TIMEOUT_TICKS })).get? jb
        = some { rb with connected_to := c } := by
      rw [upd_get_other _ (fun h => hjbc h.symm)]
      exact upd_get_same _ hjb
    have hGc : (upd (upd l jb fun r => { r with connected_to := c }) jc
          (fun r => { r with connected_to := b,
                             ticks := COMMAND_TIMEOUT_TICKS })).get? jc
        = some { rc with connected_to := b,
                         ticks := COMMAND_TIMEOUT_TICKS } := by
      have h1 : (upd l jb fun r =>
          { r with connected_to := c }).get? jc = some rc := by
        rw [upd_get_other _ hjbc]
        exact hjc
      exact upd_get_same _ h1
    have hGo : ∀ x, x ≠ jb → x ≠ jc →
        (upd (upd l jb fun r => { r with connected_to := c }) jc
          (fun r => { r with connected_to := b,
                             ticks := COMMAND_TIMEOUT_TICKS })).get? x
          = l.get? x := by
      intro x hxb hxc
      rw [upd_get_other _ (fun h => hxc h.symm),
        upd_get_other _ (fun h => hxb h.symm)]
    intro i a j b' hi hj hct
    by_cases hib : i = jb
    · rw [hib, hGb] at hi
      injection hi with hi
      subst hi
      have hct' : c = b'.fd := hct
      by_cases hjc' : j = jc
      · rw [hjc', hGc] at hj
        injection hj with hj
        subst hj
        refine ⟨hrbfd.symm, ?_⟩
        intro k a' hk hct2
        rw [hib]
        by_cases hkb : k = jb
        · exact hkb
        · by_cases hkc : k = jc
          · rw [hkc, hGc] at hk
            injection hk with hk
            exfalso
            rw [← hk] at hct2
            have hct2' : b = rc.fd := hct2
            rw [hrcfd] at hct2'
            exact hcb hct2'.symm
          · rw [hGo k hkb hkc] at hk
            exfalso
            exact hnc k a' hk hct2
      · exfalso
        by_cases hjb' : j = jb
        · rw [hjb', hGb] at hj
          injection hj with hj
          have hcrb : c = rb.fd := by rw [hct', ← hj]
          rw [hrbfd] at hcrb
          exact hcb hcrb
        · rw [hGo j hjb' hjc'] at hj
          have hbfd : b'.fd = rc.fd := by rw [← hct', hrcfd]
          exact hjc' (fd_inj hnd hj hjc hbfd)
    · by_cases hic : i = jc
      · rw [hic, hGc] at hi
        injection hi with hi
        subst hi
        have hct' : b = b'.fd := hct
        by_cases hjb' : j = jb
        · rw [hjb', hGb] at hj
          injection hj with hj
          subst hj
          refine ⟨hrcfd.symm, ?_⟩
          intro k a' hk hct2
          rw [hic]
          by_cases hkc : k = jc
          · exact hkc
          · by_cases hkb : k = jb
            · rw [hkb, hGb] at hk
              injection hk with hk
              exfalso
              rw [← hk] at hct2
              have hct2' : c = rb.fd := hct2
              rw [hrbfd] at hct2'
              exact hcb hct2'
            · rw [hGo k hkb hkc] at hk
              exfalso
              have hct2' : a'.connected_to = rb.fd := hct2
              exact hnb k a' hk hct2'
        · exfalso
          by_cases hjc' : j = jc
          · rw [hjc', hGc] at hj
            injection hj with hj
            have hbrc : b = rc.fd := by rw [hct', ← hj]
            rw [hrcfd] at hbrc
            exact hcb hbrc.symm
          · rw [hGo j hjb' hjc'] at hj
            have hbfd : b'.fd = rb.fd := by rw [← hct', hrbfd]
            exact hjb' (fd_inj hnd hj hjb hbfd)
      · rw [hGo i hib hic] at hi
        by_cases hjb' : j = jb
        · rw [hjb', hGb] at hj
          injection hj with hj
          exfalso
          have hct' : a.connected_to = rb.fd := by rw [hct, ← hj]
          exact hnb i a hi hct'
        · by_cases hjc' : j = jc
          · rw [hjc', hGc] at hj
            injection hj with hj
            exfalso
            have hct' : a.connected_to = rc.fd := by rw [hct, ← hj]
            exact hnc i a hi hct'
          · rw [hGo j hjb' hjc'] at hj
            obtain ⟨hsym, huniq⟩ := hinv i a j b' hi hj hct
            refine ⟨hsym, ?_⟩
            intro k a' hk hct2
            by_cases hkb : k = jb
            · rw [hkb, hGb] at hk
              injection hk with hk
              exfalso
              rw [← hk] at hct2
              have hct2' : c = b'.fd := hct2
              have hbfd : b'.fd = rc.fd := by rw [← hct2', hrcfd]
              exact hjc' (fd_inj hnd hj hjc hbfd)
            · by_cases hkc : k = jc
              · rw [hkc, hGc] at hk
                injection hk with hk
                exfalso
                rw [← hk] at hct2
                have hct2' : b = b'.fd := hct2
                have hbfd : b'.fd = rb.fd := by rw [← hct2', hrbfd]
                exact hjb' (fd_inj hnd hj hjb hbfd)
              · rw [hGo k hkb hkc] at hk
                exact huniq k a' hk hct2

/-- Any `disconnect_fds` call preserves the strict routing
invariant. -/
lemma invStrong_disconnect {l : List FdItem} (hwf : WFfd l)
    (hinv : InvStrong l) (f : Int) :
    InvStrong (disconnect_fds l f).2 := by
  obtain ⟨hnd, hpos⟩ := hwf
  have hpos2 := (wffd_of_sameFds (sameFds_disconnect l f) ⟨hnd, hpos⟩).2
  cases hfm : findFd l f with
  | none =>
    have hL : (disconnect_fds l f).2 = l := by
      unfold disconnect_fds
      rw [hfm]
    rw [hL]
    exact hinv
  | some m =>
    obtain ⟨rm, hrm, hrmfd⟩ := findFd_spec hfm
    by_cases h0 : rm.connected_to = 0
    · -- sentinel: only the record itself is cleared
      have hL : (disconnect_fds l f).2
          = upd l m (fun r => { r with connected_to := (-1 : Int) }) := by
        unfold disconnect_fds
        rw [hfm]
        simp only [hrm, Option.getD_some]
        rw [if_pos h0]
      have hpos' : ∀ r' ∈ upd l m
          (fun r => { r with connected_to := (-1 : Int) }), 0 < r'.fd := by
        rw [← hL]
        exact hpos2
      rw [hL]
      have hGm : (upd l m
            (fun r => { r with connected_to := (-1 : Int) })).get? m
          = some { rm with connected_to := (-1 : Int) } :=
        upd_get_same _ hrm
      intro i a j b' hi hj hct
      by_cases hib : i = m
      · rw [hib, hGm] at hi
        injection hi with hi
        subst hi
        exfalso
        have hct' : (-1 : Int) = b'.fd := hct
        have := hpos' b' (List.get?_mem hj)
        omega
      · rw [upd_get_other _ (fun h => hib h.symm)] at hi
        by_cases hjm : j = m
        · rw [hjm, hGm] at hj
          injection hj with hj
          exfalso
          have hct' : a.connected_to = rm.fd := by rw [hct, ← hj]
          have hsym := (hinv i a m rm hi hrm hct').1
          rw [h0] at hsym
          have := hpos a (List.get?_mem hi)
          omega
        · rw [upd_get_other _ (fun h => hjm h.symm)] at hj
          obtain ⟨hsym, huniq⟩ := hinv i a j b' hi hj hct
          refine ⟨hsym, ?_⟩
          intro k a' hk hct2
          by_cases hkm : k = m
          · rw [hkm, hGm] at hk
            injection hk with hk
            exfalso
            rw [← hk] at hct2
            have hct2' : (-1 : Int) = b'.fd := hct2
            have := hpos b' (List.get?_mem hj)
            omega
          · rw [upd_get_other _ (fun h => hkm h.symm)] at hk
            exact huniq k a' hk hct2
    · by_cases hm1 : rm.connected_to = -1
      · -- already idle: only the ticks are disarmed
        have hL : (disconnect_fds l f).2
            = upd l m (fun r => { r with ticks := (-1 : Int) }) := by
          unfold disconnect_fds
          rw [hfm]
          simp only [hrm, Option.getD_some]
          rw [if_neg h0, if_pos hm1]
        have hpos' : ∀ r' ∈ upd l m
            (fun r => { r with ticks := (-1 : Int) }), 0 < r'.fd := by
          rw [← hL]
          exact hpos2
        rw [hL]
        have hGm : (upd l m
              (fun r => { r with ticks := (-1 : Int) })).get? m
            = some { rm with ticks := (-1 : Int) } :=
          upd_get_same _ hrm
        have hnm := no_ptr_of_idle hinv hpos hrm hm1
        intro i a j b' hi hj hct
        by_cases hib : i = m
        · rw [hib, hGm] at hi
          injection hi with hi
          subst hi
          exfalso
          have hct' : rm.connected_to = b'.fd := hct
          rw [hm1] at hct'
          have := hpos' b' (List.get?_mem hj)
          omega
        · rw [upd_get_other _ (fun h => hib h.symm)] at hi
          by_cases hjm : j = m
          · rw [hjm, hGm] at hj
            injection hj with hj
            exfalso
            have hct' : a.connected_to = rm.fd := by rw [hct, ← hj]
            exact hnm i a hi hct'
          · rw [upd_get_other _ (fun h => hjm h.symm)] at hj
            obtain ⟨hsym, huniq⟩ := hinv i a j b' hi hj hct
            refine ⟨hsym, ?_⟩
            intro k a' hk hct2
            by_cases hkm : k = m
            · rw [hkm, hGm] at hk
              injection hk with hk
              exfalso
              rw [← hk] at hct2
              have hct2' : rm.connected_to = b'.fd := hct2
              rw [hm1] at hct2'
              have := hpos b' (List.get?_mem hj)
              omega
            · rw [upd_get_other _ (fun h => hkm h.symm)] at hk
              exact huniq k a' hk hct2
      · -- a live pointer: both ends are cleared
        have hfo2 : findFd (upd l m fun r => { r with ticks := (-1 : Int) })
            rm.connected_to = findFd l rm.connected_to :=
          findFd_upd l m (fun r => { r with ticks := (-1 : Int) })
            (fun _ => rfl) rm.connected_to
        cases hoo : findFd l rm.connected_to with
        | none =>
          have hnone := findIdxQ_none_spec _ l hoo
          have hL : (disconnect_fds l f).2
              = upd (upd l m fun r => { r with ticks := (-1 : Int) }) m
                  (fun r => { r with connected_to := (-1 : Int) }) := by
            unfold disconnect_fds
            rw [hfm]
            simp only [hrm, Option.getD_some]
            rw [if_neg h0, if_neg hm1, hfo2, hoo]
          have hpos' : ∀ r' ∈ upd (upd l m fun r =>
              { r with ticks := (-1 : Int) }) m
              (fun r => { r with connected_to := (-1 : Int) }),
              0 < r'.fd := by
            rw [← hL]
            exact hpos2
          rw [hL]
          have hGm : (upd (upd l m fun r =>
                { r with ticks := (-1 : Int) }) m
                (fun r => { r with connected_to := (-1 : Int) })).get? m
              = some { rm with ticks := (-1 : Int),
                               connected_to := (-1 : Int) } :=
            upd_get_same _ (upd_get_same _ hrm)
          have hGo : ∀ x, x ≠ m → (upd (upd l m fun r =>
              { r with ticks := (-1 : Int) }) m
              (fun r => { r with connected_to := (-1 : Int) })).get? x
              = l.get? x := by
            intro x hx
            rw [upd_get_other _ (fun h => hx h.symm),
              upd_get_other _ (fun h => hx h.symm)]
          intro i a j b' hi hj hct
          by_cases hib : i = m
          · rw [hib, hGm] at hi
            injection hi with hi
            subst hi
            exfalso
            have hct' : (-1 : Int) = b'.fd := hct
            have := hpos' b' (List.get?_mem hj)
            omega
          · rw [hGo i hib] at hi
            by_cases hjm : j = m
            · rw [hjm, hGm] at hj
              injection hj with hj
              exfalso
              have hct' : a.connected_to = rm.fd := by rw [hct, ← hj]
              have hsym := (hinv i a m rm hi hrm hct').1
              have := hnone a (List.get?_mem hi)
              simp at this
              exact this hsym.symm
            · rw [hGo j hjm] at hj
              obtain ⟨hsym, huniq⟩ := hinv i a j b' hi hj hct
              refine ⟨hsym, ?_⟩
              intro k a' hk hct2
              by_cases hkm : k = m
              · rw [hkm, hGm] at hk
                injection hk with hk
                exfalso
                rw [← hk] at hct2
                have hct2' : (-1 : Int) = b'.fd := hct2
                have := hpos b' (List.get?_mem hj)
                omega
              · rw [hGo k hkm] at hk
                exact huniq k a' hk hct2
        | some o =>
          obtain ⟨ro, hro, hrofd⟩ := findFd_spec hoo
          have hL : (disconnect_fds l f).2
              = upd (upd (upd l m fun r => { r with ticks := (-1 : Int) })
                  m (fun r => { r with connected_to := (-1 : Int) })) o
                  (fun r => { r with connected_to := (-1 : Int),
                                     ticks := (-1 : Int) }) := by
            unfold disconnect_fds
            rw [hfm]
            simp only [hrm, Option.getD_some]
            rw [if_neg h0, if_neg hm1, hfo2, hoo]
          have hpos' : ∀ r' ∈ upd (upd (upd l m fun r =>
              { r with ticks := (-1 : Int) }) m
              (fun r => { r with connected_to := (-1 : Int) })) o
              (fun r => { r with connected_to := (-1 : Int),
                                 ticks := (-1 : Int) }), 0 < r'.fd := by
            rw [← hL]
            exact hpos2
          rw [hL]
          by_cases hom : o = m
          · -- a self loop: one record, cleared
            have hGm : (upd (upd (upd l m fun r =>
                  { r with ticks := (-1 : Int) }) m
                  (fun r => { r with connected_to := (-1 : Int) })) o
                  (fun r => { r with connected_to := (-1 : Int),
                                     ticks := (-1 : Int) })).get? m
                = some { rm with connected_to := (-1 : Int),
                                 ticks := (-1 : Int) } := by
              have hGm1 := upd_get_same
                (fun r => { r with ticks := (-1 : Int) }) hrm
              have hGm2 := upd_get_same
                (fun r => { r with connected_to := (-1 : Int) }) hGm1
              have hGm3 := upd_get_same
                (fun r => { r with connected_to := (-1 : Int),
                                   ticks := (-1 : Int) }) hGm2
              rw [hom]
              exact hGm3
            have hGo : ∀ x, x ≠ m → (upd (upd (upd l m fun r =>
                { r with ticks := (-1 : Int) }) m
                (fun r => { r with connected_to := (-1 : Int) })) o
                (fun r => { r with connected_to := (-1 : Int),
                                   ticks := (-1 : Int) })).get? x
                = l.get? x := by
              intro x hx
              rw [hom, upd_get_other _ (fun h => hx h.symm),
                upd_get_other _ (fun h => hx h.symm),
                upd_get_other _ (fun h => hx h.symm)]
            have hrmm : ro = rm := by
              rw [hom] at hro
              rw [hrm] at hro
              injection hro with hro
              exact hro.symm
            intro i a j b' hi hj hct
            by_cases hib : i = m
            · rw [hib, hGm] at hi
              injection hi with hi
              subst hi
              exfalso
              have hct' : (-1 : Int) = b'.fd := hct
              have := hpos' b' (List.get?_mem hj)
              omega
            · rw [hGo i hib] at hi
              by_cases hjm : j = m
              · rw [hjm, hGm] at hj
                injection hj with hj
                exfalso
                have hct' : a.connected_to = rm.fd := by rw [hct, ← hj]
                have hsym := (hinv i a m rm hi hrm hct').1
                have hafd : a.fd = rm.fd := by
                  rw [← hsym, ← hrofd, hrmm]
                exact hib (fd_inj hnd hi hrm hafd)
              · rw [hGo j hjm] at hj
                obtain ⟨hsym, huniq⟩ := hinv i a j b' hi hj hct
                refine ⟨hsym, ?_⟩
                intro k a' hk hct2
                by_cases hkm : k = m
                · rw [hkm, hGm] at hk
                  injection hk with hk
                  exfalso
                  rw [← hk] at hct2
                  have hct2' : (-1 : Int) = b'.fd := hct2
                  have := hpos b' (List.get?_mem hj)
                  omega
                · rw [hGo k hkm] at hk
                  exact huniq k a' hk hct2
          · -- distinct partner: both records end cleared
            have hGm : (upd (upd (upd l m fun r =>
                  { r with ticks := (-1 : Int) }) m
                  (fun r => { r with connected_to := (-1 : Int) })) o
                  (fun r => { r with connected_to := (-1 : Int),
                                     ticks := (-1 : Int) })).get? m
                = some { rm with ticks := (-1 : Int),
                                 connected_to := (-1 : Int) } := by
              rw [upd_get_other _ hom]
              exact upd_get_same _ (upd_get_same _ hrm)
            have hGp : (upd (upd (upd l m fun r =>
                  { r with ticks := (-1 : Int) }) m
                  (fun r => { r with connected_to := (-1 : Int) })) o
                  (fun r => { r with connected_to := (-1 : Int),
                                     ticks := (-1 : Int) })).get? o
                = some { ro with connected_to := (-1 : Int),
                                 ticks := (-1 : Int) } := by
              have h1 : (upd (upd l m fun r =>
                  { r with ticks := (-1 : Int) }) m
                  (fun r => { r with connected_to := (-1 : Int) })).get? o
                  = some ro := by
                rw [upd_get_other _ (fun h => hom h.symm),
                  upd_get_other _ (fun h => hom h.symm)]
                exact hro
              exact upd_get_same _ h1
            have hGo2 : ∀ x, x ≠ m → x ≠ o → (upd (upd (upd l m fun r =>
                { r with ticks := (-1 : Int) }) m
                (fun r => { r with connected_to := (-1 : Int) })) o
                (fun r => { r with connected_to := (-1 : Int),
                                   ticks := (-1 : Int) })).get? x
                = l.get? x := by
              intro x hxm hxo
              rw [upd_get_other _ (fun h => hxo h.symm),
                upd_get_other _ (fun h => hxm h.symm),
                upd_get_other _ (fun h => hxm h.symm)]
            intro i a j b' hi hj hct
            by_cases hib : i = m
            · rw [hib, hGm] at hi
              injection hi with hi
              subst hi
              exfalso
              have hct' : (-1 : Int) = b'.fd := hct
              have := hpos' b' (List.get?_mem hj)
              omega
            · by_cases hio : i = o
              · rw [hio, hGp] at hi
                injection hi with hi
                subst hi
                exfalso
                have hct' : (-1 : Int) = b'.fd := hct
                have := hpos' b' (List.get?_mem hj)
                omega
              · rw [hGo2 i hib hio] at hi
                by_cases hjm : j = m
                · rw [hjm, hGm] at hj
                  injection hj with hj
                  exfalso
                  have hct' : a.connected_to = rm.fd := by rw [hct, ← hj]
                  have hsym := (hinv i a m rm hi hrm hct').1
                  have hafd : a.fd = ro.fd := by rw [← hsym, ← hrofd]
                  exact hio (fd_inj hnd hi hro hafd)
                · by_cases hjo : j = o
                  · rw [hjo, hGp] at hj
                    injection hj with hj
                    exfalso
                    have hct' : a.connected_to = ro.fd := by rw [hct, ← hj]
                    have huniq := (hinv i a o ro hi hro hct').2
                    have : m = i := huniq m rm hrm hrofd.symm
                    exact hib this.symm
                  · rw [hGo2 j hjm hjo] at hj
                    obtain ⟨hsym, huniq⟩ := hinv i a j b' hi hj hct
                    refine ⟨hsym, ?_⟩
                    intro k a' hk hct2
                    by_cases hkm : k = m
                    · rw [hkm, hGm] at hk
                      injection hk with hk
                      exfalso
                      rw [← hk] at hct2
                      have hct2' : (-1 : Int) = b'.fd := hct2
                      have := hpos b' (List.get?_mem hj)
                      omega
                    · by_cases hko : k = o
                      · rw [hko, hGp] at hk
                        injection hk with hk
                        exfalso
                        rw [← hk] at hct2
                        have hct2' : (-1 : Int) = b'.fd := hct2
                        have := hpos b' (List.get?_mem hj)
                        omega
                      · rw [hGo2 k hkm hko] at hk
                        exact huniq k a' hk hct2

/-- Guarded reachability preserves well-formedness and the strict
routing invariant. -/
lemma groute_inv {l0 l : List FdItem} (h : GRoute l0 l) (hwf : WFfd l0)
    (hinv : InvStrong l0) : WFfd l ∧ InvStrong l := by
  induction h with
  | refl => exact ⟨hwf, hinv⟩
  | conn l c b hr hg ih =>
    exact ⟨wffd_of_sameFds (sameFds_connect l c b) ih.1,
      invStrong_connect ih.1 ih.2 hg⟩
  | disc l f hr ih =>
    exact ⟨wffd_of_sameFds (sameFds_disconnect l f) ih.1,
      invStrong_disconnect ih.1 ih.2 f⟩

/-- C2 (amended): the claimed symmetry of the routing relation holds on
every state reachable from a well-formed all-symmetric registry by
`disconnect_fds` calls and by *guarded* `connect_fds` calls (both ends
present and idle, distinct fds, as a handler acting on an idle client
performs them): whenever record A's `connected_to` equals record B's
fd, B's `connected_to` is A's fd or the local sentinel 0, and at most
one record is connected to any given record.  Without the guard the
symmetry breaks (see the counterexample): `connect_fds` itself never
checks that either end is idle. -/
theorem c2_amended_guarded_symmetry (l0 l : List FdItem)
    (hwf : WFfd l0) (hinv : InvStrong l0) (hr : GRoute l0 l) :
    (∀ a ∈ l, ∀ b ∈ l, a.connected_to = b.fd →
        b.connected_to = a.fd ∨ b.connected_to = 0)
    ∧ (∀ i a j b k a', l.get? i = some a → l.get? j = some b →
        l.get? k = some a' → a.connected_to = b.fd →
        a'.connected_to = b.fd → i = k) := by
  obtain ⟨_, hinv'⟩ := groute_inv hr hwf hinv
  constructor
  · intro a ha b hb hct
    obtain ⟨i, hi⟩ := List.get?_of_mem ha
    obtain ⟨j, hj⟩ := List.get?_of_mem hb
    exact Or.inl (hinv' i a j b hi hj hct).1
  · intro i a j b k a' hi hj hk hct hct'
    have huniq := (hinv' i a j b hi hj hct).2
    exact (huniq k a' hk hct').symm

/-- Witness for `c2_amended_guarded_symmetry`: client fd 10 connects to
backend fd 5 on the idle registry `c2WitList`; in the reached state the
symmetry and the at-most-one-pointer property hold. -/
theorem c2_amended_guarded_symmetry_witness :
    (∀ a ∈ (connect_fds c2WitList 10 5).2,
      ∀ b ∈ (connect_fds c2WitList 10 5).2, a.connected_to = b.fd →
        b.connected_to = a.fd ∨ b.connected_to = 0)
    ∧ (∀ i a j b k a',
        (connect_fds c2WitList 10 5).2.get? i = some a →
        (connect_fds c2WitList 10 5).2.get? j = some b →
        (connect_fds c2WitList 10 5).2.get? k = some a' →
        a.connected_to = b.fd → a'.connected_to = b.fd → i = k) :=
  c2_amended_guarded_symmetry c2WitList (connect_fds c2WitList 10 5).2
    (by decide)
    (invStrong_of_all_idle c2WitList (by decide) (by decide))
    (GRoute.conn c2WitList c2WitList 10 5 (GRoute.refl c2WitList)
      (by decide))

end Lircd